import Mathlib

/-!
# Cx1e2e: CRUD test orchestration engine

A shallow embedding of `main.go`, `users.go` and `types.go`, followed by theorems about
the verdict ledger, the phase scheduler, the user test module, membership reconciliation
and the configuration loader.

Conventions of the embedding.

* The process state that Go keeps in package variables, in the objects behind pointers
  and in the remote system is one explicit record `World`, passed through every call.
* `*Cx1ClientGo.User` is an address into `World.heap`; `nil` is `none`.  Taking the
  address of a local (`&test_User`) allocates a fresh cell.
* The client library `Cx1ClientGo` is not part of the repository: it is the parameter
  `Cx1Client`, a record of functions over an arbitrary remote state.
* Dereferencing a nil handle is a run-time panic; a function that may panic returns an
  `Option`, with `none` for the panic.
* A slice held in a library object is a list value.  Where the code ranges over such a
  slice while it hands the object to the library, the array cells the loop reads are
  passed along explicitly and the library call says what it leaves in them
  (`removeGroups`, `RemoveReply.cells`).
* `World.calls` is a record of the client calls issued, in order.  It is used only to
  state properties; no definition reads it.
-/

namespace Cx1e2e

/-! ## Types of the client library used by the code -/

/-- The fields of `Cx1ClientGo.Group` the code reads. -/
structure Group where
  GroupID : String
  Name : String
deriving DecidableEq, Inhabited

/-- The fields of `Cx1ClientGo.Role` the code reads. -/
structure Role where
  RoleID : String
  Name : String
deriving DecidableEq, Inhabited

/-- The fields of `Cx1ClientGo.User` the code reads or writes.  The default value is the
Go zero value (`var test_User Cx1ClientGo.User`). -/
structure User where
  UserID : String := ""
  UserName : String := ""
  Email : String := ""
  Groups : List Group := []
  Roles : List Role := []
deriving DecidableEq, Inhabited

/-! ## types.go -/

/-- Type `Tag` of types.go. -/
structure Tag where
  Key : String
  Value : String
deriving DecidableEq, Inhabited

/-- Type `ApplicationRule` of types.go (`RuleType` is its field `Type`). -/
structure ApplicationRule where
  RuleType : String
  Value : String
deriving DecidableEq, Inhabited

/-- Type `ApplicationCRUD` of types.go; the pointer field is an address or nil. -/
structure ApplicationCRUD where
  Name : String
  Test : String
  Groups : List String
  Criticality : Nat
  Rules : List ApplicationRule
  Tags : List Tag
  FailTest : Bool
  TestResult : Bool
  Application : Option Nat
deriving DecidableEq, Inhabited

/-- Type `CxQLScope` of types.go. -/
structure CxQLScope where
  Corp : Bool
  Project : String
  Application : String
deriving DecidableEq, Inhabited

/-- Type `CxQLCRUD` of types.go. -/
structure CxQLCRUD where
  QueryLanguage : String
  QueryGroup : String
  QueryName : String
  Test : String
  Source : String
  Scope : CxQLScope
  Severity : String
  FailTest : Bool
  Compile : Bool
  TestResult : Bool
  Query : Option Nat
deriving DecidableEq, Inhabited

/-- The anonymous element type of `GroupCRUD.ClientRoles`. -/
structure ClientRole where
  Client : String
  Roles : List String
deriving DecidableEq, Inhabited

/-- Type `GroupCRUD` of types.go. -/
structure GroupCRUD where
  Name : String
  Test : String
  Parent : String
  ClientRoles : List ClientRole
  FailTest : Bool
  TestResult : Bool
  Group : Option Nat
deriving DecidableEq, Inhabited

/-- Type `ProjectCRUD` of types.go. -/
structure ProjectCRUD where
  Name : String
  Test : String
  Groups : List String
  Application : String
  Tags : List Tag
  FailTest : Bool
  Project : Option Nat
deriving DecidableEq, Inhabited

/-- The anonymous element type of `PresetCRUD.Queries`. -/
structure PresetQuery where
  QueryID : Nat
  QueryLanguage : String
  QueryGroup : String
  QueryName : String
deriving DecidableEq, Inhabited

/-- Type `PresetCRUD` of types.go. -/
structure PresetCRUD where
  Name : String
  Description : String
  Test : String
  Queries : List PresetQuery
  FailTest : Bool
  Preset : Option Nat
deriving DecidableEq, Inhabited

/-- Type `ResultCRUD` of types.go. -/
structure ResultCRUD where
  QueryID : Nat
  QueryLanguage : String
  QueryGroup : String
  QueryName : String
  ProjectName : String
  Number : Nat
  SimilarityID : Int
  ResultHash : String
  State : String
  Severity : String
  Comment : String
  Test : String
  FailTest : Bool
  Result : Option Nat
  Project : Option Nat
deriving DecidableEq, Inhabited

/-- Type `RoleCRUD` of types.go. -/
structure RoleCRUD where
  Name : String
  Test : String
  Permissions : List String
  FailTest : Bool
  Role : Option Nat
deriving DecidableEq, Inhabited

/-- Type `ScanCRUD` of types.go. -/
structure ScanCRUD where
  Test : String
  Project : String
  Branch : String
  Repository : String
  Engine : String
  Incremental : Bool
  WaitForEnd : Bool
  ZipFile : String
  Preset : String
  FailTest : Bool
  Scan : Option Nat
deriving DecidableEq, Inhabited

/-- Type `UserCRUD` of types.go.  `User` is the live handle: an address in the heap of
client user objects, or nil. -/
structure UserCRUD where
  Name : String
  Email : String
  Test : String
  FirstName : String
  LastName : String
  Groups : List String
  Roles : List String
  FailTest : Bool
  User : Option Nat
deriving DecidableEq, Inhabited

/-- Method `(o *UserCRUD) String()`: `fmt.Sprintf("%v (%v)", o.Name, o.Email)`. -/
def UserCRUD.String (o : UserCRUD) : String :=
  o.Name ++ " (" ++ o.Email ++ ")"

/-- Type `TestSet` of types.go, with the field `Wait` that main.go reads (`t.Wait`). -/
structure TestSet where
  Name : String
  File : String
  Wait : Nat
  Groups : List GroupCRUD
  Users : List UserCRUD
  Applications : List ApplicationCRUD
  Projects : List ProjectCRUD
  Queries : List CxQLCRUD
  Presets : List PresetCRUD
  Roles : List RoleCRUD
  Scans : List ScanCRUD
  Results : List ResultCRUD
deriving DecidableEq, Inhabited

/-- Type `TestConfig` of types.go, with the fields `ConfigPath` and `LogLevel` that
main.go reads and writes. -/
structure TestConfig where
  Cx1URL : String
  IAMURL : String
  Tenant : String
  ProxyURL : String
  LogLevel : String
  ConfigPath : String
  Tests : List TestSet
deriving DecidableEq, Inhabited

/-- Type `TestResult` of types.go.  `Result` holds the verdict that main.go stores and
switches on: 0 fail, 1 pass, 2 skip (types.go declares the field `bool`; the numbers of
main.go are followed here).  `Duration` is the nanosecond difference that Go divides by
`float64(time.Second)`. -/
structure TestResult where
  FailTest : Bool
  Result : Nat
  CRUD : String
  Duration : Int
  Name : String
  Id : Nat
  TestObject : String
  Reason : String
deriving DecidableEq, Inhabited

/-! ## The client library as a parameter -/

/-- Outcome of a client call that returns a value and an error. -/
structure Reply (ρ α : Type) where
  remote : ρ
  value : Except String α

/-- Outcome of a client call on a `*User`: the remote state, the user object as the call
leaves it, and the error (`none` for nil). -/
structure UserReply (ρ : Type) where
  remote : ρ
  user : User
  err : Option String

/-- Outcome of `RemoveUserFromGroupByID`.  The code calls it with the pointer `t.User`
while it ranges over `t.User.Groups`, so the call can write not only the user object but
also the array cells the loop is reading: `cells xs` is what the call leaves in those
cells when they hold `xs` (as many cells as before; storing a new list in a new array
leaves them alone). -/
structure RemoveReply (ρ : Type) extends UserReply ρ where
  cells : List Group → List Group

/-- The methods of `Cx1ClientGo.Cx1Client` and of `Cx1ClientGo.User` that users.go
calls, over a remote state `ρ`. -/
structure Cx1Client (ρ : Type) where
  GetUserGroups : ρ → User → UserReply ρ
  GetGroupByName : ρ → String → Reply ρ Group
  AssignUserToGroupByID : ρ → User → String → UserReply ρ
  RemoveUserFromGroupByID : ρ → User → String → RemoveReply ρ
  GetUserRoles : ρ → User → UserReply ρ
  GetRoleByName : ρ → String → Reply ρ Role
  AddUserRoles : ρ → User → List Role → UserReply ρ
  RemoveUserRoles : ρ → User → List Role → UserReply ρ
  CreateUser : ρ → User → Reply ρ User
  GetUserByUserName : ρ → String → Reply ρ User
  UpdateUser : ρ → User → UserReply ρ
  DeleteUser : ρ → User → UserReply ρ
  IsInGroupByName : User → String → Bool
  HasRoleByName : User → String → Bool
  UserString : User → String

/-- A client call as issued: the method and its arguments.  A handle argument is recorded
as its address, a group id together with the group record it was read from. -/
inductive Call where
  | GetUserGroups (user : Nat)
  | GetGroupByName (name : String)
  | AssignUserToGroupByID (user : Nat) (group : Group)
  | RemoveUserFromGroupByID (user : Nat) (group : Group)
  | GetUserRoles (user : Nat)
  | GetRoleByName (name : String)
  | AddUserRoles (user : Nat) (roles : List Role)
  | RemoveUserRoles (user : Nat) (roles : List Role)
  | CreateUser (user : User)
  | GetUserByUserName (name : String)
  | UpdateUser (user : Nat)
  | DeleteUser (user : Nat)
deriving DecidableEq, Inhabited

/-- An argument of a logger call. -/
inductive Arg where
  | str (s : String)
  | int (n : Int)
  | secs (nanos : Int)
deriving DecidableEq, Inhabited

/-- A logger call: level, format string and arguments (the line is not rendered). -/
structure LogEntry where
  level : String
  format : String
  args : List Arg
deriving DecidableEq, Inhabited

/-- State of the process and of the remote system. -/
structure World (ρ : Type) where
  remote : ρ
  heap : Nat → User
  next : Nat
  ticks : Nat
  calls : List Call
  log : List LogEntry
  TestResults : List TestResult

/-- What the embedding takes from outside the three source files: the client library,
the wall clock (`clock n` is the n-th reading of `time.Now().UnixNano()`), and the two
arguments of the ledger functions of main.go that the call sites in users.go do not
spell out (`failTest` for all three, `testObject` for `LogSkip`). -/
structure Env (ρ : Type) where
  client : Cx1Client ρ
  clock : Nat → Int
  failTestArg : UserCRUD → Bool
  skipObjectArg : UserCRUD → String

variable {ρ : Type}

/-- Reading `time.Now().UnixNano()`. -/
def now (env : Env ρ) (w : World ρ) : Int × World ρ :=
  (env.clock w.ticks, { w with ticks := w.ticks + 1 })

/-- A call of `logger.Infof`, `Warnf` or `Errorf`. -/
def logf (level format : String) (args : List Arg) (w : World ρ) : World ρ :=
  { w with log := w.log ++ [⟨level, format, args⟩] }

/-- Statement `TestResults = append(TestResults, r)`. -/
def appendResult (r : TestResult) (w : World ρ) : World ρ :=
  { w with TestResults := w.TestResults ++ [r] }

/-- Function `LogStart` of main.go. -/
def LogStart (_failTest : Bool) (CRUD : String) (_start : Int) (testName : String)
    (testId : Nat) (testObject : String) (w : World ρ) : World ρ :=
  logf "info" "Starting %v Test '%v' #%d - %v"
    [.str CRUD, .str testName, .int testId, .str testObject] (logf "info" "" [] w)

/-- Function `LogPass` of main.go. -/
def LogPass (env : Env ρ) (failTest : Bool) (CRUD : String) (start : Int)
    (testName : String) (testId : Nat) (testObject : String) (w : World ρ) : World ρ :=
  let duration := (now env w).1 - start
  let w1 := (now env w).2
  if failTest then
    appendResult
      ⟨failTest, 0, CRUD, duration, testName, testId, testObject,
        "test passed but was expected to fail"⟩
      (logf "error" "FAIL [%.3fs]: %v FailTest '%v' #%d (%v) - %v"
        [.secs duration, .str CRUD, .str testName, .int testId, .str testObject,
          .str "test passed but was expected to fail"] w1)
  else
    appendResult ⟨failTest, 1, CRUD, duration, testName, testId, testObject, ""⟩
      (logf "info" "PASS [%.3fs]: %v Test '%v' #%d (%v)"
        [.secs duration, .str CRUD, .str testName, .int testId, .str testObject] w1)

/-- Function `LogSkip` of main.go. -/
def LogSkip (env : Env ρ) (failTest : Bool) (CRUD : String) (start : Int)
    (testName : String) (testId : Nat) (testObject : String) (reason : String)
    (w : World ρ) : World ρ :=
  let duration := (now env w).1 - start
  let w1 := (now env w).2
  appendResult ⟨failTest, 2, CRUD, duration, testName, testId, testObject, ""⟩
    (logf "warning" "SKIP [%.3fs]: %v Test '%v' #%d - %v"
      [.secs duration, .str CRUD, .str testName, .int testId, .str reason] w1)

/-- Function `LogFail` of main.go; `reason` is the message of the error. -/
def LogFail (env : Env ρ) (failTest : Bool) (CRUD : String) (start : Int)
    (testName : String) (testId : Nat) (testObject : String) (reason : String)
    (w : World ρ) : World ρ :=
  let duration := (now env w).1 - start
  let w1 := (now env w).2
  if failTest then
    appendResult ⟨failTest, 1, CRUD, duration, testName, testId, testObject, ""⟩
      (logf "info" "PASS [%.3fs]: %v FailTest '%v' #%d (%v)"
        [.secs duration, .str CRUD, .str testName, .int testId, .str testObject] w1)
  else
    appendResult ⟨failTest, 0, CRUD, duration, testName, testId, testObject, reason⟩
      (logf "error" "FAIL [%.3fs]: %v Test '%v' #%d (%v) - %s"
        [.secs duration, .str CRUD, .str testName, .int testId, .str testObject,
          .str reason] w1)

/-! ## main.go: phase selection -/

/-- Is `sub` a contiguous part of `s`. -/
def containsChars (sub : List Char) : List Char → Bool
  | [] => sub.isPrefixOf []
  | c :: cs => sub.isPrefixOf (c :: cs) || containsChars sub cs

/-- Library function `strings.Contains`.  Go compares bytes; on the one-character ASCII
patterns used below this is the same as comparing characters. -/
def Contains (s substr : String) : Bool :=
  containsChars substr.toList s.toList

/-- Function `IsCreate` of main.go. -/
def IsCreate (test : String) : Bool := Contains test "C"

/-- Function `IsRead` of main.go. -/
def IsRead (test : String) : Bool := Contains test "R"

/-- Function `IsUpdate` of main.go. -/
def IsUpdate (test : String) : Bool := Contains test "U"

/-- Function `IsDelete` of main.go. -/
def IsDelete (test : String) : Bool := Contains test "D"

/-! ## users.go -/

/-- A client call on the handle at address `a`: the library reads the user object behind
the pointer and may rewrite it. -/
def callUser (k : Call) (f : ρ → User → UserReply ρ) (a : Nat) (w : World ρ) :
    Option String × World ρ :=
  ((f w.remote (w.heap a)).err,
    { w with
      remote := (f w.remote (w.heap a)).remote
      heap := fun x => if x = a then (f w.remote (w.heap a)).user else w.heap x
      calls := w.calls ++ [k] })

/-- A client call that takes no handle. -/
def callLookup {α : Type} (k : Call) (f : ρ → Reply ρ α) (w : World ρ) :
    Except String α × World ρ :=
  ((f w.remote).value, { w with remote := (f w.remote).remote, calls := w.calls ++ [k] })

/-- Lines 39-50 of `updateUserFromConfig`: the loop over `t.Groups` ("groups to add"),
from the declared names still to visit; the first component is the error returned from
inside the loop, if any. -/
def addGroups (env : Env ρ) (a : Nat) : List String → World ρ → Option String × World ρ
  | [], w => (none, w)
  | g :: rest, w =>
    if !env.client.IsInGroupByName (w.heap a) g then
      let r := callLookup (.GetGroupByName g) (fun r => env.client.GetGroupByName r g) w
      match r.1 with
      | .error err => (some ("failed to find group " ++ g ++ ": " ++ err), r.2)
      | .ok group =>
        let r1 := callUser (.AssignUserToGroupByID a group)
          (fun r u => env.client.AssignUserToGroupByID r u group.GroupID) a r.2
        match r1.1 with
        | some err => (some ("failed to assign user to group " ++ g ++ ": " ++ err), r1.2)
        | none => addGroups env a rest r1.2
    else addGroups env a rest w

/-- Lines 53-59: the inner loop with `break`, the value of `matched` after it. -/
def matchedGroup (name : String) : List String → Bool
  | [] => false
  | newgroup :: rest => if name == newgroup then true else matchedGroup name rest

/-- Lines 52-67: the loop over `t.User.Groups` ("groups to remove").  The range
expression is evaluated once, before the first iteration: that fixes the array and the
number of iterations.  Each iteration reads its element from the array when it is
reached, so it sees what the calls of earlier iterations wrote there.  Arguments: the
iterations left, the index `i` of the next one, and the contents of the cells. -/
def removeGroups (env : Env ρ) (t : UserCRUD) (a : Nat) :
    Nat → Nat → List Group → World ρ → Option String × World ρ
  | 0, _, _, w => (none, w)
  | left + 1, i, cells, w =>
    let g := cells.getD i default
    if !matchedGroup g.Name t.Groups then
      let r := callUser (.RemoveUserFromGroupByID a g)
        (fun r u => (env.client.RemoveUserFromGroupByID r u g.GroupID).toUserReply) a w
      match r.1 with
      | some err => (some ("failed to remove user from group " ++ g.Name ++ ": " ++ err), r.2)
      | none =>
        removeGroups env t a left (i + 1)
          ((env.client.RemoveUserFromGroupByID w.remote (w.heap a) g.GroupID).cells cells) r.2
    else removeGroups env t a left (i + 1) cells w

/-- Lines 76-85: the loop over `t.Roles` ("check for roles to add"), with the value of
`new_roles` so far. -/
def newRoles (env : Env ρ) (a : Nat) :
    List String → List Role → World ρ → Except String (List Role) × World ρ
  | [], new_roles, w => (.ok new_roles, w)
  | newrole :: rest, new_roles, w =>
    if !env.client.HasRoleByName (w.heap a) newrole then
      let r := callLookup (.GetRoleByName newrole)
        (fun r => env.client.GetRoleByName r newrole) w
      match r.1 with
      | .error err => (.error err, r.2)
      | .ok role => newRoles env a rest (new_roles ++ [role]) r.2
    else newRoles env a rest new_roles w

/-- Lines 97-102: the inner loop without `break`, the value of `matched` after it. -/
def matchedRole (name : String) (roles : List String) : Bool :=
  roles.foldl (fun matched r => if r == name then true else matched) false

/-- Lines 96-107: the loop over `t.User.Roles`, with the value of `del_roles` so far. -/
def delRoles (t : UserCRUD) : List Role → List Role → List Role
  | [], del_roles => del_roles
  | oldrole :: rest, del_roles =>
    if !matchedRole oldrole.Name t.Roles then delRoles t rest (del_roles ++ [oldrole])
    else delRoles t rest del_roles

/-- Function `updateUserFromConfig` of users.go.  Result: the error returned (`none` for
nil) and the state; `none` if the handle is nil. -/
def updateUserFromConfig (env : Env ρ) (t : UserCRUD) (w : World ρ) :
    Option (Option String × World ρ) :=
  match t.User with
  | none => none
  | some a =>
    let r1 := callUser (.GetUserGroups a) env.client.GetUserGroups a w
    match r1.1 with
    | some err => some (some err, r1.2)
    | none =>
    let r2 := addGroups env a t.Groups r1.2
    match r2.1 with
    | some err => some (some err, r2.2)
    | none =>
    let r3 := removeGroups env t a (r2.2.heap a).Groups.length 0 (r2.2.heap a).Groups r2.2
    match r3.1 with
    | some err => some (some err, r3.2)
    | none =>
    let r4 := callUser (.GetUserRoles a) env.client.GetUserRoles a r3.2
    match r4.1 with
    | some err => some (some ("failed to get user's roles: " ++ err), r4.2)
    | none =>
    let r5 := newRoles env a t.Roles [] r4.2
    match r5.1 with
    | .error err => some (some err, r5.2)
    | .ok new_roles =>
    let r6 :=
      if new_roles.length > 0 then
        callUser (.AddUserRoles a new_roles)
          (fun r u => env.client.AddUserRoles r u new_roles) a r5.2
      else (none, r5.2)
    match r6.1 with
    | some err =>
      some (some ("failed to grant user " ++ env.client.UserString (r6.2.heap a)
        ++ " new roles: " ++ err), r6.2)
    | none =>
    let del_roles := delRoles t (r6.2.heap a).Roles []
    let r7 :=
      if del_roles.length > 0 then
        callUser (.RemoveUserRoles a del_roles)
          (fun r u => env.client.RemoveUserRoles r u del_roles) a r6.2
      else (none, r6.2)
    match r7.1 with
    | some err =>
      some (some ("failed to remove user " ++ env.client.UserString (r7.2.heap a)
        ++ " old roles: " ++ err), r7.2)
    | none => some (none, r7.2)

/-- Statement `t.User = &test_User`: the local is moved to a fresh heap cell and the
declaration points to it. -/
def attach (t : UserCRUD) (test_User : User) (w : World ρ) : UserCRUD × World ρ :=
  ({ t with User := some w.next },
    { w with heap := fun x => if x = w.next then test_User else w.heap x
             next := w.next + 1 })

/-- Function `UserTestCreate` of users.go.  Result: the declaration behind `t` after the
call, the error returned, the state. -/
def UserTestCreate (env : Env ρ) (_testname : String) (t : UserCRUD) (w : World ρ) :
    Option (UserCRUD × Option String × World ρ) :=
  let r := callLookup (.CreateUser { UserName := t.Name, Email := t.Email })
    (fun r => env.client.CreateUser r { UserName := t.Name, Email := t.Email }) w
  match r.1 with
  | .error err => some (t, some err, r.2)
  | .ok test_User =>
    match updateUserFromConfig env (attach t test_User r.2).1 (attach t test_User r.2).2 with
    | none => none
    | some (err, w2) => some ((attach t test_User r.2).1, err, w2)

/-- Function `UserTestRead` of users.go. -/
def UserTestRead (env : Env ρ) (_testname : String) (t : UserCRUD) (w : World ρ) :
    Option (UserCRUD × Option String × World ρ) :=
  let r := callLookup (.GetUserByUserName t.Name)
    (fun r => env.client.GetUserByUserName r t.Name) w
  match r.1 with
  | .error err => some (t, some err, r.2)
  | .ok test_User => some ((attach t test_User r.2).1, none, (attach t test_User r.2).2)

/-- Function `UserTestUpdate` of users.go. -/
def UserTestUpdate (env : Env ρ) (_testname : String) (t : UserCRUD) (w : World ρ) :
    Option (UserCRUD × Option String × World ρ) :=
  match updateUserFromConfig env t w with
  | none => none
  | some (some err, w1) => some (t, some err, w1)
  | some (none, w1) =>
    match t.User with
    | none => none
    | some a =>
      some (t, (callUser (.UpdateUser a) env.client.UpdateUser a w1).1,
        (callUser (.UpdateUser a) env.client.UpdateUser a w1).2)

/-- Function `UserTestDelete` of users.go. -/
def UserTestDelete (env : Env ρ) (_testname : String) (t : UserCRUD) (w : World ρ) :
    Option (UserCRUD × Option String × World ρ) :=
  match t.User with
  | none => none
  | some a =>
    let r := callUser (.DeleteUser a) env.client.DeleteUser a w
    match r.1 with
    | some err => some (t, some err, r.2)
    | none => some ({ t with User := none }, none, r.2)

/-- Statement `for id := range *users`, with the body applied to the element at index
`id` and to the rest of the state; elements are updated in place. -/
def forRange {α σ : Type} (body : Nat → α → σ → Option (α × σ)) :
    Nat → List α → σ → Option (List α × σ)
  | _, [], s => some ([], s)
  | id, x :: rest, s =>
    match body id x s with
    | none => none
    | some (x1, s1) =>
      match forRange body (id + 1) rest s1 with
      | none => none
      | some (rest1, s2) => some (x1 :: rest1, s2)

/-- Lines 14-28: the loop body of `UserTestsCreate`; the state is `result` and the
world. -/
def UserTestsCreateBody (env : Env ρ) (testname : String) (id : Nat) (t : UserCRUD)
    (s : Bool × World ρ) : Option (UserCRUD × (Bool × World ρ)) :=
  if IsCreate t.Test then
    if t.Name == "" || t.Email == "" then
      some (t, s.1, LogSkip env (env.failTestArg t) "Create User" (now env s.2).1
        testname (id + 1) (env.skipObjectArg t) "invalid test (missing name or email)"
        (now env s.2).2)
    else
      match UserTestCreate env testname t (now env s.2).2 with
      | none => none
      | some (t1, some err, w1) =>
        some (t1, false, LogFail env (env.failTestArg t1) "Create User" (now env s.2).1
          testname (id + 1) t1.String err w1)
      | some (t1, none, w1) =>
        some (t1, s.1, LogPass env (env.failTestArg t1) "Create User" (now env s.2).1
          testname (id + 1) t1.String w1)
  else some (t, s)

/-- Function `UserTestsCreate` of users.go.  Result: the slice behind `users` after the
call, the boolean returned, the state. -/
def UserTestsCreate (env : Env ρ) (testname : String) (users : List UserCRUD)
    (w : World ρ) : Option (List UserCRUD × (Bool × World ρ)) :=
  forRange (UserTestsCreateBody env testname) 0 users (true, w)

/-- Lines 141-155: the loop body of `UserTestsRead`. -/
def UserTestsReadBody (env : Env ρ) (testname : String) (id : Nat) (t : UserCRUD)
    (s : Bool × World ρ) : Option (UserCRUD × (Bool × World ρ)) :=
  if IsRead t.Test then
    if t.Name == "" && t.Email == "" then
      some (t, s.1, LogSkip env (env.failTestArg t) "Read User" (now env s.2).1
        testname (id + 1) (env.skipObjectArg t) "invalid test (missing name or email)"
        (now env s.2).2)
    else
      match UserTestRead env testname t (now env s.2).2 with
      | none => none
      | some (t1, some err, w1) =>
        some (t1, false, LogFail env (env.failTestArg t1) "Read User" (now env s.2).1
          testname (id + 1) t1.String err w1)
      | some (t1, none, w1) =>
        some (t1, s.1, LogPass env (env.failTestArg t1) "Read User" (now env s.2).1
          testname (id + 1) t1.String w1)
  else some (t, s)

/-- Function `UserTestsRead` of users.go. -/
def UserTestsRead (env : Env ρ) (testname : String) (users : List UserCRUD)
    (w : World ρ) : Option (List UserCRUD × (Bool × World ρ)) :=
  forRange (UserTestsReadBody env testname) 0 users (true, w)

/-- Lines 172-186: the loop body of `UserTestsUpdate`. -/
def UserTestsUpdateBody (env : Env ρ) (testname : String) (id : Nat) (t : UserCRUD)
    (s : Bool × World ρ) : Option (UserCRUD × (Bool × World ρ)) :=
  if IsUpdate t.Test then
    if t.User = none then
      some (t, s.1, LogSkip env (env.failTestArg t) "Update User" (now env s.2).1
        testname (id + 1) (env.skipObjectArg t) "invalid test (must read before updating)"
        (now env s.2).2)
    else
      match UserTestUpdate env testname t (now env s.2).2 with
      | none => none
      | some (t1, some err, w1) =>
        some (t1, false, LogFail env (env.failTestArg t1) "Update User" (now env s.2).1
          testname (id + 1) t1.String err w1)
      | some (t1, none, w1) =>
        some (t1, s.1, LogPass env (env.failTestArg t1) "Update User" (now env s.2).1
          testname (id + 1) t1.String w1)
  else some (t, s)

/-- Function `UserTestsUpdate` of users.go. -/
def UserTestsUpdate (env : Env ρ) (testname : String) (users : List UserCRUD)
    (w : World ρ) : Option (List UserCRUD × (Bool × World ρ)) :=
  forRange (UserTestsUpdateBody env testname) 0 users (true, w)

/-- Lines 203-217: the loop body of `UserTestsDelete`. -/
def UserTestsDeleteBody (env : Env ρ) (testname : String) (id : Nat) (t : UserCRUD)
    (s : Bool × World ρ) : Option (UserCRUD × (Bool × World ρ)) :=
  if IsDelete t.Test then
    if t.User = none then
      some (t, s.1, LogSkip env (env.failTestArg t) "Delete User" (now env s.2).1
        testname (id + 1) (env.skipObjectArg t) "invalid test (must read before deleting)"
        (now env s.2).2)
    else
      match UserTestDelete env testname t (now env s.2).2 with
      | none => none
      | some (t1, some err, w1) =>
        some (t1, false, LogFail env (env.failTestArg t1) "Delete User" (now env s.2).1
          testname (id + 1) t1.String err w1)
      | some (t1, none, w1) =>
        some (t1, s.1, LogPass env (env.failTestArg t1) "Delete User" (now env s.2).1
          testname (id + 1) t1.String w1)
  else some (t, s)

/-- Function `UserTestsDelete` of users.go. -/
def UserTestsDelete (env : Env ρ) (testname : String) (users : List UserCRUD)
    (w : World ρ) : Option (List UserCRUD × (Bool × World ρ)) :=
  forRange (UserTestsDeleteBody env testname) 0 users (true, w)

/-! ## main.go: the phase scheduler -/

/-- The nine entity kinds. -/
inductive Kind where
  | Group | Application | Project | Role | User | Query | Preset | Scan | Result
deriving DecidableEq, Inhabited

/-- The four phases. -/
inductive Phase where
  | Create | Read | Update | Delete
deriving DecidableEq, Inhabited

/-- One call of an entity module entry point: the position of the test set, the phase
and the kind. -/
structure Invocation where
  set : Nat
  phase : Phase
  kind : Kind
deriving DecidableEq, Inhabited

/-- The entry points of the eight entity modules whose source files are not among the
three embedded here, as parameters: each takes the test name and the slice and returns
the slice and the state after the call (the boolean they return is dropped by every
caller). -/
structure Modules (ρ : Type) where
  GroupTestsCreate : String → List GroupCRUD → World ρ → List GroupCRUD × World ρ
  ApplicationTestsCreate : String → List ApplicationCRUD → World ρ → List ApplicationCRUD × World ρ
  ProjectTestsCreate : String → List ProjectCRUD → World ρ → List ProjectCRUD × World ρ
  RoleTestsCreate : String → List RoleCRUD → World ρ → List RoleCRUD × World ρ
  QueryTestsCreate : String → List CxQLCRUD → World ρ → List CxQLCRUD × World ρ
  PresetTestsCreate : String → List PresetCRUD → World ρ → List PresetCRUD × World ρ
  ScanTestsCreate : String → List ScanCRUD → World ρ → List ScanCRUD × World ρ
  ResultTestsCreate : String → List ResultCRUD → World ρ → List ResultCRUD × World ρ
  GroupTestsRead : String → List GroupCRUD → World ρ → List GroupCRUD × World ρ
  ApplicationTestsRead : String → List ApplicationCRUD → World ρ → List ApplicationCRUD × World ρ
  ProjectTestsRead : String → List ProjectCRUD → World ρ → List ProjectCRUD × World ρ
  RoleTestsRead : String → List RoleCRUD → World ρ → List RoleCRUD × World ρ
  QueryTestsRead : String → List CxQLCRUD → World ρ → List CxQLCRUD × World ρ
  PresetTestsRead : String → List PresetCRUD → World ρ → List PresetCRUD × World ρ
  ScanTestsRead : String → List ScanCRUD → World ρ → List ScanCRUD × World ρ
  ResultTestsRead : String → List ResultCRUD → World ρ → List ResultCRUD × World ρ
  GroupTestsUpdate : String → List GroupCRUD → World ρ → List GroupCRUD × World ρ
  ApplicationTestsUpdate : String → List ApplicationCRUD → World ρ → List ApplicationCRUD × World ρ
  ProjectTestsUpdate : String → List ProjectCRUD → World ρ → List ProjectCRUD × World ρ
  RoleTestsUpdate : String → List RoleCRUD → World ρ → List RoleCRUD × World ρ
  QueryTestsUpdate : String → List CxQLCRUD → World ρ → List CxQLCRUD × World ρ
  PresetTestsUpdate : String → List PresetCRUD → World ρ → List PresetCRUD × World ρ
  ScanTestsUpdate : String → List ScanCRUD → World ρ → List ScanCRUD × World ρ
  ResultTestsUpdate : String → List ResultCRUD → World ρ → List ResultCRUD × World ρ
  GroupTestsDelete : String → List GroupCRUD → World ρ → List GroupCRUD × World ρ
  ApplicationTestsDelete : String → List ApplicationCRUD → World ρ → List ApplicationCRUD × World ρ
  ProjectTestsDelete : String → List ProjectCRUD → World ρ → List ProjectCRUD × World ρ
  RoleTestsDelete : String → List RoleCRUD → World ρ → List RoleCRUD × World ρ
  QueryTestsDelete : String → List CxQLCRUD → World ρ → List CxQLCRUD × World ρ
  PresetTestsDelete : String → List PresetCRUD → World ρ → List PresetCRUD × World ρ
  ScanTestsDelete : String → List ScanCRUD → World ρ → List ScanCRUD × World ρ
  ResultTestsDelete : String → List ResultCRUD → World ρ → List ResultCRUD × World ρ

/-- A call of an entity module entry point: the call is recorded, then the module runs. -/
def invoke {α : Type} (i : Nat) (p : Phase) (k : Kind) (f : World ρ → α × World ρ)
    (s : World ρ × List Invocation) : α × (World ρ × List Invocation) :=
  ((f s.1).1, ((f s.1).2, s.2 ++ [⟨i, p, k⟩]))

/-- A call of an entry point of the user module. -/
def invokeUsers (i : Nat) (p : Phase)
    (f : World ρ → Option (List UserCRUD × (Bool × World ρ)))
    (s : World ρ × List Invocation) : Option (List UserCRUD × (World ρ × List Invocation)) :=
  match f s.1 with
  | none => none
  | some (users, _, w) => some (users, (w, s.2 ++ [⟨i, p, .User⟩]))

/-- Function `TestCreate` of main.go (lines 223-233).  `i` is the position of the set in
`Config.Tests`; it is used for the record of invocations only.  Result: the set behind
`tests` after the calls, and the state. -/
def TestCreate (env : Env ρ) (m : Modules ρ) (i : Nat) (testname : String) (tests : TestSet)
    (s : World ρ × List Invocation) : Option (TestSet × (World ρ × List Invocation)) :=
  let r1 := invoke i .Create .Group (m.GroupTestsCreate testname tests.Groups) s
  let r2 := invoke i .Create .Application (m.ApplicationTestsCreate testname tests.Applications) r1.2
  let r3 := invoke i .Create .Project (m.ProjectTestsCreate testname tests.Projects) r2.2
  let r4 := invoke i .Create .Role (m.RoleTestsCreate testname tests.Roles) r3.2
  match invokeUsers i .Create (UserTestsCreate env testname tests.Users) r4.2 with
  | none => none
  | some r5 =>
  let r6 := invoke i .Create .Query (m.QueryTestsCreate testname tests.Queries) r5.2
  let r7 := invoke i .Create .Preset (m.PresetTestsCreate testname tests.Presets) r6.2
  let r8 := invoke i .Create .Scan (m.ScanTestsCreate testname tests.Scans) r7.2
  let r9 := invoke i .Create .Result (m.ResultTestsCreate testname tests.Results) r8.2
  some ({ tests with
      Groups := r1.1
      Applications := r2.1
      Projects := r3.1
      Roles := r4.1
      Users := r5.1
      Queries := r6.1
      Presets := r7.1
      Scans := r8.1
      Results := r9.1 }, r9.2)

/-- Function `TestRead` of main.go (lines 234-244).  `i` is the position of the set in
`Config.Tests`; it is used for the record of invocations only.  Result: the set behind
`tests` after the calls, and the state. -/
def TestRead (env : Env ρ) (m : Modules ρ) (i : Nat) (testname : String) (tests : TestSet)
    (s : World ρ × List Invocation) : Option (TestSet × (World ρ × List Invocation)) :=
  let r1 := invoke i .Read .Group (m.GroupTestsRead testname tests.Groups) s
  let r2 := invoke i .Read .Application (m.ApplicationTestsRead testname tests.Applications) r1.2
  let r3 := invoke i .Read .Project (m.ProjectTestsRead testname tests.Projects) r2.2
  let r4 := invoke i .Read .Role (m.RoleTestsRead testname tests.Roles) r3.2
  match invokeUsers i .Read (UserTestsRead env testname tests.Users) r4.2 with
  | none => none
  | some r5 =>
  let r6 := invoke i .Read .Query (m.QueryTestsRead testname tests.Queries) r5.2
  let r7 := invoke i .Read .Preset (m.PresetTestsRead testname tests.Presets) r6.2
  let r8 := invoke i .Read .Scan (m.ScanTestsRead testname tests.Scans) r7.2
  let r9 := invoke i .Read .Result (m.ResultTestsRead testname tests.Results) r8.2
  some ({ tests with
      Groups := r1.1
      Applications := r2.1
      Projects := r3.1
      Roles := r4.1
      Users := r5.1
      Queries := r6.1
      Presets := r7.1
      Scans := r8.1
      Results := r9.1 }, r9.2)

/-- Function `TestUpdate` of main.go (lines 245-255).  `i` is the position of the set in
`Config.Tests`; it is used for the record of invocations only.  Result: the set behind
`tests` after the calls, and the state. -/
def TestUpdate (env : Env ρ) (m : Modules ρ) (i : Nat) (testname : String) (tests : TestSet)
    (s : World ρ × List Invocation) : Option (TestSet × (World ρ × List Invocation)) :=
  let r1 := invoke i .Update .Group (m.GroupTestsUpdate testname tests.Groups) s
  let r2 := invoke i .Update .Application (m.ApplicationTestsUpdate testname tests.Applications) r1.2
  let r3 := invoke i .Update .Project (m.ProjectTestsUpdate testname tests.Projects) r2.2
  let r4 := invoke i .Update .Role (m.RoleTestsUpdate testname tests.Roles) r3.2
  match invokeUsers i .Update (UserTestsUpdate env testname tests.Users) r4.2 with
  | none => none
  | some r5 =>
  let r6 := invoke i .Update .Query (m.QueryTestsUpdate testname tests.Queries) r5.2
  let r7 := invoke i .Update .Preset (m.PresetTestsUpdate testname tests.Presets) r6.2
  let r8 := invoke i .Update .Scan (m.ScanTestsUpdate testname tests.Scans) r7.2
  let r9 := invoke i .Update .Result (m.ResultTestsUpdate testname tests.Results) r8.2
  some ({ tests with
      Groups := r1.1
      Applications := r2.1
      Projects := r3.1
      Roles := r4.1
      Users := r5.1
      Queries := r6.1
      Presets := r7.1
      Scans := r8.1
      Results := r9.1 }, r9.2)

/-- Function `TestDelete` of main.go (lines 256-266).  `i` is the position of the set in
`Config.Tests`; it is used for the record of invocations only.  Result: the set behind
`tests` after the calls, and the state. -/
def TestDelete (env : Env ρ) (m : Modules ρ) (i : Nat) (testname : String) (tests : TestSet)
    (s : World ρ × List Invocation) : Option (TestSet × (World ρ × List Invocation)) :=
  let r1 := invoke i .Delete .Group (m.GroupTestsDelete testname tests.Groups) s
  let r2 := invoke i .Delete .Application (m.ApplicationTestsDelete testname tests.Applications) r1.2
  let r3 := invoke i .Delete .Project (m.ProjectTestsDelete testname tests.Projects) r2.2
  let r4 := invoke i .Delete .Role (m.RoleTestsDelete testname tests.Roles) r3.2
  match invokeUsers i .Delete (UserTestsDelete env testname tests.Users) r4.2 with
  | none => none
  | some r5 =>
  let r6 := invoke i .Delete .Query (m.QueryTestsDelete testname tests.Queries) r5.2
  let r7 := invoke i .Delete .Preset (m.PresetTestsDelete testname tests.Presets) r6.2
  let r8 := invoke i .Delete .Scan (m.ScanTestsDelete testname tests.Scans) r7.2
  let r9 := invoke i .Delete .Result (m.ResultTestsDelete testname tests.Results) r8.2
  some ({ tests with
      Groups := r1.1
      Applications := r2.1
      Projects := r3.1
      Roles := r4.1
      Users := r5.1
      Queries := r6.1
      Presets := r7.1
      Scans := r8.1
      Results := r9.1 }, r9.2)

/-- Lines 212-219: the loop body of `RunTests`.  The sleep is not modelled beyond its log
line: the clock of the environment is arbitrary. -/
def RunTestsBody (env : Env ρ) (m : Modules ρ) (i : Nat) (t : TestSet)
    (s : World ρ × List Invocation) : Option (TestSet × (World ρ × List Invocation)) :=
  let s0 : World ρ × List Invocation :=
    if t.Wait > 0 then (logf "info" "Waiting for %d seconds" [.int t.Wait] s.1, s.2) else s
  match TestCreate env m i t.Name t s0 with
  | none => none
  | some (t1, s1) =>
  match TestRead env m i t.Name t1 s1 with
  | none => none
  | some (t2, s2) =>
  match TestUpdate env m i t.Name t2 s2 with
  | none => none
  | some (t3, s3) => TestDelete env m i t.Name t3 s3

/-- Function `RunTests` of main.go over `Config.Tests`.  Result: the sets as the modules
leave them, the state, and the invocations made, in order. -/
def RunTests (env : Env ρ) (m : Modules ρ) (tests : List TestSet) (w : World ρ) :
    Option (List TestSet × (World ρ × List Invocation)) :=
  forRange (RunTestsBody env m) 0 tests (w, [])

/-! ## main.go: the configuration loader -/

/-- What the loader takes from the operating system and the YAML library: `Open` gives
the error of `os.Open`, `Decode path conf` the result of decoding the file into `conf`,
`Stat` whether `os.Stat` succeeds, and `Abs`, `Dir`, `Clean` are the functions of
`path/filepath`. -/
structure FileSystem where
  Open : String → Option String
  Decode : String → TestConfig → Except String TestConfig
  Stat : String → Bool
  Abs : String → String
  Dir : String → String
  Clean : String → String

/-- Zero value of `TestConfig` (`var conf TestConfig`). -/
def TestConfig.zero : TestConfig :=
  { Cx1URL := "", IAMURL := "", Tenant := "", ProxyURL := "", LogLevel := "",
    ConfigPath := "", Tests := [] }

/-- Function `getFilePath` of main.go (its debug log lines are not recorded). -/
def getFilePath (fs : FileSystem) (currentRoot file : String) : Except String String :=
  if fs.Stat file then .ok (fs.Clean file)
  else if fs.Stat (currentRoot ++ "\\" ++ file) then
    .ok (fs.Clean (currentRoot ++ "\\" ++ file))
  else .error ("unable to find configuration file " ++ file)

/-- Lines 165-173 of `LoadConfig`: the loop over `set.Scans`, which rewrites the
`ZipFile` of each scan in place. -/
def resolveScans (fs : FileSystem) (currentRoot : String) :
    List ScanCRUD → Except String (List ScanCRUD)
  | [] => .ok []
  | scan :: rest =>
    if scan.ZipFile != "" then
      match getFilePath fs currentRoot scan.ZipFile with
      | .error _ => .error ("error locating scan zipfile " ++ scan.ZipFile)
      | .ok filePath =>
        match resolveScans fs currentRoot rest with
        | .error e => .error e
        | .ok rest1 => .ok ({ scan with ZipFile := filePath } :: rest1)
    else
      match resolveScans fs currentRoot rest with
      | .error e => .error e
      | .ok rest1 => .ok (scan :: rest1)

/-- Lines 151-176 of `LoadConfig`: the loop over `conf.Tests`, with the value of
`testSet` so far; `load` is the recursive call of `LoadConfig`.  `none` means that a
recursive call did not return. -/
def loadSets (fs : FileSystem) (load : String → Option (Except String TestConfig))
    (currentRoot : String) :
    List TestSet → List TestSet → Option (Except String (List TestSet))
  | [], testSet => some (.ok testSet)
  | set :: rest, testSet =>
    if set.File != "" then
      match getFilePath fs currentRoot set.File with
      | .error err => some (.error err)
      | .ok configPath =>
        match load configPath with
        | none => none
        | some (.error err) =>
          some (.error ("error loading sub-test " ++ set.File ++ ": " ++ err))
        | some (.ok conf2) => loadSets fs load currentRoot rest (testSet ++ conf2.Tests)
    else
      match resolveScans fs currentRoot set.Scans with
      | .error e => some (.error e)
      | .ok scans =>
        loadSets fs load currentRoot rest (testSet ++ [{ set with Scans := scans }])

/-- Function `LoadConfig` of main.go.  The recursion follows file references, so it is
bounded by `fuel`, the number of nested calls allowed; `none` means the bound was
reached. -/
def LoadConfig (fs : FileSystem) : Nat → String → Option (Except String TestConfig)
  | 0, _ => none
  | fuel + 1, configPath =>
    match fs.Open configPath with
    | some err => some (.error err)
    | none =>
      match fs.Decode configPath { TestConfig.zero with ConfigPath := fs.Abs configPath } with
      | .error err => some (.error err)
      | .ok conf =>
        match loadSets fs (LoadConfig fs fuel) (fs.Dir configPath) conf.Tests [] with
        | none => none
        | some (.error err) => some (.error err)
        | some (.ok testSet) => some (.ok { conf with Tests := testSet })

/-! ## main.go: the entry point -/

/-- What `main` takes from its surroundings besides the file system: `url.Parse` (its
error), `Cx1ClientGo.NewAPIKeyClient` (error, or the remote state the client starts
from) and the `String` method of the client. -/
structure Host (ρ : Type) where
  fs : FileSystem
  urlParse : String → Option String
  NewAPIKeyClient : (proxy Cx1URL IAMURL Tenant apiKey : String) → Except String ρ
  clientString : ρ → String

/-- How a run of the process ends: exit status, the lines printed with `fmt.Printf` and
`fmt.Println`, the logger calls made, and the final ledger. -/
structure Exit where
  status : Nat
  stdout : List String
  log : List LogEntry
  TestResults : List TestResult
deriving DecidableEq, Inhabited

/-- The counters and the output of the summary loop of `main` (lines 100-116). -/
structure Tally where
  count_failed : Nat
  count_passed : Nat
  count_skipped : Nat
  stdout : List String
deriving DecidableEq, Inhabited

/-- Lines 105-115: the body of the summary loop. -/
def tallyBody (s : Tally) (result : TestResult) : Tally :=
  match result.Result with
  | 1 =>
    { s with
      stdout := s.stdout ++
        ["PASS " ++ result.Name ++ " - " ++ result.CRUD ++ ": " ++ result.TestObject ++ "\n"]
      count_passed := s.count_passed + 1 }
  | 0 =>
    { s with
      stdout := s.stdout ++
        ["FAIL " ++ result.Name ++ " - " ++ result.CRUD ++ ": " ++ result.TestObject ++ "\n"]
      count_failed := s.count_failed + 1 }
  | 2 =>
    { s with
      stdout := s.stdout ++
        ["SKIP " ++ result.Name ++ " - " ++ result.CRUD ++ ": " ++ result.TestObject ++ "\n"]
      count_skipped := s.count_skipped + 1 }
  | _ => s

/-- Lines 99-127 of `main`: the summary printed after `RunTests`. -/
def summary (results : List TestResult) : List String :=
  let s := results.foldl tallyBody ⟨0, 0, 0, []⟩
  s.stdout ++ ["\n"]
    ++ ["Ran " ++ toString (s.count_failed + s.count_passed + s.count_skipped) ++ " tests\n"]
    ++ (if s.count_failed > 0 then ["FAILED " ++ toString s.count_failed ++ " tests\n"] else [])
    ++ (if s.count_skipped > 0 then ["SKIPPED " ++ toString s.count_skipped ++ " tests\n"]
        else [])
    ++ (if s.count_passed > 0 then ["PASSED " ++ toString s.count_passed ++ " tests\n"] else [])

/-- The usage lines logged when the argument count is wrong (lines 34-37). -/
def usage : List LogEntry :=
  [⟨"info", "The purpose of this tool is to automate testing of the API for various workflows based on the yaml configuration.", []⟩,
   ⟨"info", "Expected arguments not provided. Usage:\n1)\tcx1e2e <test definition yaml file> <APIKey>\n", []⟩,
   ⟨"info", "2)\tcx1e2e <test definition yaml file> <APIKey> <Cx1 URL> <IAM URL> <Tenant>\n", []⟩,
   ⟨"info", "Note: API Key authentication is currently required and OIDC client/secret authentication is not supported.\n", []⟩]

/-- Function `main` of main.go on the arguments `args` (`os.Args`).  `logger.Fatalf`
logs and ends the process with status 1; returning from `main` ends it with status 0.
The logger level chosen from `Config.LogLevel` is not modelled: `log` records the calls
made, whatever the level.  `fuel` bounds the loader; `none` means that the process did
not end normally (the loader did not return, or a panic). -/
def main (env : Env ρ) (m : Modules ρ) (host : Host ρ) (fuel : Nat) (args : List String) :
    Option Exit :=
  if args.length != 3 && args.length != 6 then some ⟨0, [], usage, []⟩
  else
    match LoadConfig host.fs fuel (args.getD 1 "") with
    | none => none
    | some (.error err) =>
      some ⟨1, [], [⟨"fatal", "Failed to load configuration file %v: %s",
        [.str (args.getD 1 ""), .str err]⟩], []⟩
    | some (.ok conf) =>
      match (if conf.ProxyURL != "" then host.urlParse conf.ProxyURL else none) with
      | some err =>
        some ⟨1, [], [⟨"fatal", "Failed to parse specified proxy address %v: %s",
          [.str conf.ProxyURL, .str err]⟩], []⟩
      | none =>
        let log1 : List LogEntry :=
          if conf.ProxyURL != "" then [⟨"info", "Running with proxy: %v", [.str conf.ProxyURL]⟩]
          else []
        let Config : TestConfig :=
          if args.length = 6 then
            { conf with Cx1URL := args.getD 3 "", IAMURL := args.getD 4 "",
                        Tenant := args.getD 5 "" }
          else conf
        match host.NewAPIKeyClient Config.ProxyURL Config.Cx1URL Config.IAMURL Config.Tenant
            (args.getD 2 "") with
        | .error err =>
          some ⟨1, [], log1 ++ [⟨"fatal", "Failed to create Cx1 client: %s", [.str err]⟩], []⟩
        | .ok remote =>
          match RunTests env m Config.Tests
              { remote := remote, heap := fun _ => {}, next := 0, ticks := 0, calls := [],
                log := log1 ++ [⟨"info", "Created Cx1 client %s",
                  [.str (host.clientString remote)]⟩],
                TestResults := [] } with
          | none => none
          | some (_, w, _) =>
            some ⟨0, summary w.TestResults,
              w.log ++ [⟨"info", "Test result summary:\n", []⟩], w.TestResults⟩

/-! ## The schedule, as the specification words it -/

/-- The fixed kind order of the specification. -/
def kindOrder : List Kind :=
  [.Group, .Application, .Project, .Role, .User, .Query, .Preset, .Scan, .Result]

/-- The phase order of the specification. -/
def phaseOrder : List Phase := [.Create, .Read, .Update, .Delete]

/-- The invocations the specification prescribes for the set at position `i`: every
phase in order, and within a phase every kind in order. -/
def setSchedule (i : Nat) : List Invocation :=
  phaseOrder.flatMap fun p => kindOrder.map fun k => ⟨i, p, k⟩

/-- The invocations the specification prescribes for `n` sets starting at position
`i`. -/
def schedule (i n : Nat) : List Invocation :=
  (List.range' i n).flatMap setSchedule

/-- Position of a phase in the phase order. -/
def Phase.rank : Phase → Nat
  | .Create => 0
  | .Read => 1
  | .Update => 2
  | .Delete => 3

/-- Position of a kind in the kind order. -/
def Kind.rank : Kind → Nat
  | .Group => 0
  | .Application => 1
  | .Project => 2
  | .Role => 3
  | .User => 4
  | .Query => 5
  | .Preset => 6
  | .Scan => 7
  | .Result => 8

/-- Invocation `a` is scheduled before invocation `b`: an earlier set, or the same set
and an earlier phase, or the same set and phase and an earlier kind. -/
def Invocation.before (a b : Invocation) : Prop :=
  a.set < b.set ∨ (a.set = b.set ∧ (a.phase.rank < b.phase.rank
    ∨ (a.phase = b.phase ∧ a.kind.rank < b.kind.rank)))

instance (a b : Invocation) : Decidable (a.before b) := by
  unfold Invocation.before
  infer_instance


/-! ## The user module, by phase -/

/-- Does the phase string `test` select phase `p` (`IsCreate`, `IsRead`, `IsUpdate`,
`IsDelete`). -/
def selects (p : Phase) (test : String) : Bool :=
  match p with
  | .Create => IsCreate test
  | .Read => IsRead test
  | .Update => IsUpdate test
  | .Delete => IsDelete test

/-- The loop body of the entry point of the user module for phase `p`. -/
def UserTestsBody (p : Phase) (env : Env ρ) (testname : String) :
    Nat → UserCRUD → Bool × World ρ → Option (UserCRUD × (Bool × World ρ)) :=
  match p with
  | .Create => UserTestsCreateBody env testname
  | .Read => UserTestsReadBody env testname
  | .Update => UserTestsUpdateBody env testname
  | .Delete => UserTestsDeleteBody env testname

/-- The entry point of the user module for phase `p`: `UserTestsCreate`,
`UserTestsRead`, `UserTestsUpdate` or `UserTestsDelete`. -/
def UserTests (p : Phase) (env : Env ρ) (testname : String) (users : List UserCRUD)
    (w : World ρ) : Option (List UserCRUD × (Bool × World ρ)) :=
  match p with
  | .Create => UserTestsCreate env testname users w
  | .Read => UserTestsRead env testname users w
  | .Update => UserTestsUpdate env testname users w
  | .Delete => UserTestsDelete env testname users w

/-- The `CRUD` label the user module passes to the ledger in phase `p`. -/
def userLabel : Phase → String
  | .Create => "Create User"
  | .Read => "Read User"
  | .Update => "Update User"
  | .Delete => "Delete User"

/-- `Iteration body run pre t post s s1 t1 s2`: the loop over `pre ++ t :: post` started
in state `s`, whose value is `run`, returns; its iteration for `t` starts in state `s1`,
the state the loop reaches over `pre`, and ends in state `s2` with `t1` in place of `t`;
the rest of the loop goes on from `s2`. -/
def Iteration {α σ : Type} (body : Nat → α → σ → Option (α × σ))
    (run : Option (List α × σ)) (pre : List α) (t : α) (post : List α)
    (s s1 : σ) (t1 : α) (s2 : σ) : Prop :=
  ∃ pre1 post1 s3,
    forRange body 0 pre s = some (pre1, s1)
    ∧ body pre.length t s1 = some (t1, s2)
    ∧ forRange body (pre.length + 1) post s2 = some (post1, s3)
    ∧ run = some (pre1 ++ t1 :: post1, s3)

/-! ## Running the schedule, as the specification words it -/

/-- The entry point of the Group module for phase `p`. -/
def Modules.GroupTests (m : Modules ρ) :
    Phase → String → List GroupCRUD → World ρ → List GroupCRUD × World ρ
  | .Create => m.GroupTestsCreate
  | .Read => m.GroupTestsRead
  | .Update => m.GroupTestsUpdate
  | .Delete => m.GroupTestsDelete

/-- The entry point of the Application module for phase `p`. -/
def Modules.ApplicationTests (m : Modules ρ) :
    Phase → String → List ApplicationCRUD → World ρ → List ApplicationCRUD × World ρ
  | .Create => m.ApplicationTestsCreate
  | .Read => m.ApplicationTestsRead
  | .Update => m.ApplicationTestsUpdate
  | .Delete => m.ApplicationTestsDelete

/-- The entry point of the Project module for phase `p`. -/
def Modules.ProjectTests (m : Modules ρ) :
    Phase → String → List ProjectCRUD → World ρ → List ProjectCRUD × World ρ
  | .Create => m.ProjectTestsCreate
  | .Read => m.ProjectTestsRead
  | .Update => m.ProjectTestsUpdate
  | .Delete => m.ProjectTestsDelete

/-- The entry point of the Role module for phase `p`. -/
def Modules.RoleTests (m : Modules ρ) :
    Phase → String → List RoleCRUD → World ρ → List RoleCRUD × World ρ
  | .Create => m.RoleTestsCreate
  | .Read => m.RoleTestsRead
  | .Update => m.RoleTestsUpdate
  | .Delete => m.RoleTestsDelete

/-- The entry point of the Query module for phase `p`. -/
def Modules.QueryTests (m : Modules ρ) :
    Phase → String → List CxQLCRUD → World ρ → List CxQLCRUD × World ρ
  | .Create => m.QueryTestsCreate
  | .Read => m.QueryTestsRead
  | .Update => m.QueryTestsUpdate
  | .Delete => m.QueryTestsDelete

/-- The entry point of the Preset module for phase `p`. -/
def Modules.PresetTests (m : Modules ρ) :
    Phase → String → List PresetCRUD → World ρ → List PresetCRUD × World ρ
  | .Create => m.PresetTestsCreate
  | .Read => m.PresetTestsRead
  | .Update => m.PresetTestsUpdate
  | .Delete => m.PresetTestsDelete

/-- The entry point of the Scan module for phase `p`. -/
def Modules.ScanTests (m : Modules ρ) :
    Phase → String → List ScanCRUD → World ρ → List ScanCRUD × World ρ
  | .Create => m.ScanTestsCreate
  | .Read => m.ScanTestsRead
  | .Update => m.ScanTestsUpdate
  | .Delete => m.ScanTestsDelete

/-- The entry point of the Result module for phase `p`. -/
def Modules.ResultTests (m : Modules ρ) :
    Phase → String → List ResultCRUD → World ρ → List ResultCRUD × World ρ
  | .Create => m.ResultTestsCreate
  | .Read => m.ResultTestsRead
  | .Update => m.ResultTestsUpdate
  | .Delete => m.ResultTestsDelete

/-- One invocation of the schedule carried out: the entry point of the module of kind `k`
for phase `p` runs on the list of that kind of the set `tests`.  Result: the set with
that list as the entry point leaves it, and the state. -/
def runEntry (env : Env ρ) (m : Modules ρ) (testname : String) (p : Phase) (k : Kind)
    (tests : TestSet) (w : World ρ) : Option (TestSet × World ρ) :=
  match k with
  | .Group =>
    some ({ tests with Groups := (m.GroupTests p testname tests.Groups w).1 },
      (m.GroupTests p testname tests.Groups w).2)
  | .Application =>
    some ({ tests with Applications := (m.ApplicationTests p testname tests.Applications w).1 },
      (m.ApplicationTests p testname tests.Applications w).2)
  | .Project =>
    some ({ tests with Projects := (m.ProjectTests p testname tests.Projects w).1 },
      (m.ProjectTests p testname tests.Projects w).2)
  | .Role =>
    some ({ tests with Roles := (m.RoleTests p testname tests.Roles w).1 },
      (m.RoleTests p testname tests.Roles w).2)
  | .User =>
    match UserTests p env testname tests.Users w with
    | none => none
    | some r => some ({ tests with Users := r.1 }, r.2.2)
  | .Query =>
    some ({ tests with Queries := (m.QueryTests p testname tests.Queries w).1 },
      (m.QueryTests p testname tests.Queries w).2)
  | .Preset =>
    some ({ tests with Presets := (m.PresetTests p testname tests.Presets w).1 },
      (m.PresetTests p testname tests.Presets w).2)
  | .Scan =>
    some ({ tests with Scans := (m.ScanTests p testname tests.Scans w).1 },
      (m.ScanTests p testname tests.Scans w).2)
  | .Result =>
    some ({ tests with Results := (m.ResultTests p testname tests.Results w).1 },
      (m.ResultTests p testname tests.Results w).2)

/-- The invocations of a list carried out one after the other, in the order of the list,
on one set. -/
def runSchedule (env : Env ρ) (m : Modules ρ) (testname : String) :
    List Invocation → TestSet × World ρ → Option (TestSet × World ρ)
  | [], s => some s
  | inv :: rest, s =>
    match runEntry env m testname inv.phase inv.kind s.1 s.2 with
    | none => none
    | some s1 => runSchedule env m testname rest s1

/-- The schedule carried out for the sets of a list, the first of them at position `i`:
for each set in document order, the wait is announced if there is one, then the
invocations of `setSchedule` are carried out in order. -/
def runSchedules (env : Env ρ) (m : Modules ρ) :
    Nat → List TestSet → World ρ → Option (List TestSet × World ρ)
  | _, [], w => some ([], w)
  | i, t :: rest, w =>
    match runSchedule env m t.Name (setSchedule i)
        (t, if t.Wait > 0 then logf "info" "Waiting for %d seconds" [.int t.Wait] w
          else w) with
    | none => none
    | some (t1, w1) =>
      match runSchedules env m (i + 1) rest w1 with
      | none => none
      | some (rest1, w2) => some (t1 :: rest1, w2)

/-! ## An in-memory remote system, for the examples -/

/-- A remote system held in memory: which user ids exist, their email, the names of the
groups and roles each user has, and which group and role names exist.  The id of a user,
group or role is its name. -/
structure Store where
  known : String → Bool
  email : String → String
  member : String → List String
  granted : String → List String
  groupExists : String → Bool
  roleExists : String → Bool

/-- The groups of user `uid` in the store. -/
def Store.groupsOf (s : Store) (uid : String) : List Group :=
  (s.member uid).map fun n => ⟨n, n⟩

/-- The roles of user `uid` in the store. -/
def Store.rolesOf (s : Store) (uid : String) : List Role :=
  (s.granted uid).map fun n => ⟨n, n⟩

/-- A client over the in-memory remote system.  A call on a user that does not exist
fails, as does a lookup of a name that does not exist and the creation of a user whose
name is taken. -/
def storeClient : Cx1Client Store where
  GetUserGroups s u :=
    if s.known u.UserID then ⟨s, { u with Groups := s.groupsOf u.UserID }, none⟩
    else ⟨s, u, some "user not found"⟩
  GetGroupByName s g :=
    if s.groupExists g then ⟨s, .ok ⟨g, g⟩⟩ else ⟨s, .error "group not found"⟩
  AssignUserToGroupByID s u gid :=
    if s.known u.UserID then
      ⟨{ s with member := fun id =>
          if id = u.UserID then
            (if gid ∈ s.member id then s.member id else s.member id ++ [gid])
          else s.member id }, u, none⟩
    else ⟨s, u, some "user not found"⟩
  RemoveUserFromGroupByID s u gid :=
    if s.known u.UserID then
      ⟨⟨{ s with member := fun id =>
          if id = u.UserID then (s.member id).filter (fun n => n != gid)
          else s.member id }, u, none⟩, id⟩
    else ⟨⟨s, u, some "user not found"⟩, id⟩
  GetUserRoles s u :=
    if s.known u.UserID then ⟨s, { u with Roles := s.rolesOf u.UserID }, none⟩
    else ⟨s, u, some "user not found"⟩
  GetRoleByName s n :=
    if s.roleExists n then ⟨s, .ok ⟨n, n⟩⟩ else ⟨s, .error "role not found"⟩
  AddUserRoles s u roles :=
    if s.known u.UserID then
      ⟨{ s with granted := fun id =>
          if id = u.UserID then s.granted id ++ roles.map (fun x => x.Name)
          else s.granted id }, u, none⟩
    else ⟨s, u, some "user not found"⟩
  RemoveUserRoles s u roles :=
    if s.known u.UserID then
      ⟨{ s with granted := fun id =>
          if id = u.UserID then
            (s.granted id).filter (fun n => !decide ((⟨n, n⟩ : Role) ∈ roles))
          else s.granted id }, u, none⟩
    else ⟨s, u, some "user not found"⟩
  CreateUser s u :=
    if s.known u.UserName then ⟨s, .error "user exists"⟩
    else
      ⟨{ s with
          known := fun id => id == u.UserName || s.known id
          email := fun id => if id = u.UserName then u.Email else s.email id
          member := fun id => if id = u.UserName then [] else s.member id
          granted := fun id => if id = u.UserName then [] else s.granted id },
        .ok { u with UserID := u.UserName }⟩
  GetUserByUserName s n :=
    if s.known n then
      ⟨s, .ok { UserID := n, UserName := n, Email := s.email n, Groups := s.groupsOf n,
                Roles := s.rolesOf n }⟩
    else ⟨s, .error "user not found"⟩
  UpdateUser s u :=
    if s.known u.UserID then
      ⟨{ s with email := fun id => if id = u.UserID then u.Email else s.email id }, u, none⟩
    else ⟨s, u, some "user not found"⟩
  DeleteUser s u :=
    if s.known u.UserID then
      ⟨{ s with known := fun id => !(id == u.UserID) && s.known id }, u, none⟩
    else ⟨s, u, some "user not found"⟩
  IsInGroupByName u g := u.Groups.any fun x => x.Name == g
  HasRoleByName u n := u.Roles.any fun x => x.Name == n
  UserString u := u.UserName

/-- An environment over the in-memory remote system: a clock that advances by one
second per reading, and call sites that pass the `FailTest` flag and the description of
the declaration. -/
def storeEnv : Env Store where
  client := storeClient
  clock n := 1000000000 * n
  failTestArg t := t.FailTest
  skipObjectArg t := t.String

/-- An in-memory remote system with the groups `g1` and `g2`, the roles `r1` and `r2`,
and one user `old`, who is in group `g2` and has role `r2`. -/
def demoStore : Store where
  known id := id == "old"
  email id := if id = "old" then "old@x.com" else ""
  member id := if id = "old" then ["g2"] else []
  granted id := if id = "old" then ["r2"] else []
  groupExists g := g == "g1" || g == "g2"
  roleExists n := n == "r1" || n == "r2"

/-- A process state over `demoStore` with nothing allocated, called or recorded yet. -/
def demoWorld : World Store where
  remote := demoStore
  heap _ := {}
  next := 0
  ticks := 0
  calls := []
  log := []
  TestResults := []

/-- The user declaration of the example of the specification:
`Name: u1, Email: u1@x.com, Test: CRUD, Groups: [g1]`. -/
def demoUser : UserCRUD where
  Name := "u1"
  Email := "u1@x.com"
  Test := "CRUD"
  FirstName := ""
  LastName := ""
  Groups := ["g1"]
  Roles := []
  FailTest := false
  User := none


/-- The declaration of the example with an empty email, selected for Read only. -/
def demoUserNoEmail : UserCRUD := { demoUser with Email := "", Test := "R" }

/-- The declaration of the example with a handle attached at address 0. -/
def demoUserLive : UserCRUD := { demoUser with User := some 0 }


/-- Entity modules that do nothing, for the examples. -/
def idleModules : Modules Store where
  GroupTestsCreate _ xs w := (xs, w)
  ApplicationTestsCreate _ xs w := (xs, w)
  ProjectTestsCreate _ xs w := (xs, w)
  RoleTestsCreate _ xs w := (xs, w)
  QueryTestsCreate _ xs w := (xs, w)
  PresetTestsCreate _ xs w := (xs, w)
  ScanTestsCreate _ xs w := (xs, w)
  ResultTestsCreate _ xs w := (xs, w)
  GroupTestsRead _ xs w := (xs, w)
  ApplicationTestsRead _ xs w := (xs, w)
  ProjectTestsRead _ xs w := (xs, w)
  RoleTestsRead _ xs w := (xs, w)
  QueryTestsRead _ xs w := (xs, w)
  PresetTestsRead _ xs w := (xs, w)
  ScanTestsRead _ xs w := (xs, w)
  ResultTestsRead _ xs w := (xs, w)
  GroupTestsUpdate _ xs w := (xs, w)
  ApplicationTestsUpdate _ xs w := (xs, w)
  ProjectTestsUpdate _ xs w := (xs, w)
  RoleTestsUpdate _ xs w := (xs, w)
  QueryTestsUpdate _ xs w := (xs, w)
  PresetTestsUpdate _ xs w := (xs, w)
  ScanTestsUpdate _ xs w := (xs, w)
  ResultTestsUpdate _ xs w := (xs, w)
  GroupTestsDelete _ xs w := (xs, w)
  ApplicationTestsDelete _ xs w := (xs, w)
  ProjectTestsDelete _ xs w := (xs, w)
  RoleTestsDelete _ xs w := (xs, w)
  QueryTestsDelete _ xs w := (xs, w)
  PresetTestsDelete _ xs w := (xs, w)
  ScanTestsDelete _ xs w := (xs, w)
  ResultTestsDelete _ xs w := (xs, w)

/-- A test set with no declarations. -/
def emptySet (name file : String) : TestSet :=
  { Name := name, File := file, Wait := 0, Groups := [], Users := [], Applications := [],
    Projects := [], Queries := [], Presets := [], Roles := [], Scans := [], Results := [] }

/-- The root document of the example: a leaf set `a` with one user declaration, a set `d`
that delegates to `sub.yaml` and also declares a user inline, and a leaf set `b`. -/
def rootDoc : List TestSet :=
  [{ emptySet "a" "" with Users := [demoUserNoEmail] },
   { emptySet "d" "sub.yaml" with Users := [demoUser] },
   emptySet "b" ""]

/-- The sub-document of the example: two leaf sets. -/
def subDoc : List TestSet := [emptySet "s1" "", emptySet "s2" ""]

/-- A file system holding `root.yaml` and `sub.yaml`. -/
def demoFs : FileSystem where
  Open path := if path = "root.yaml" ∨ path = "sub.yaml" then none else some "no such file"
  Decode path conf :=
    if path = "root.yaml" then .ok { conf with Tests := rootDoc }
    else if path = "sub.yaml" then .ok { conf with Tests := subDoc }
    else .error "not a document"
  Stat path := path == "root.yaml" || path == "sub.yaml"
  Abs path := "/" ++ path
  Dir _ := "."
  Clean path := path

/-- The surroundings of `main` in the example: the file system above, no proxy, and a
client that starts from `demoStore`. -/
def demoHost : Host Store where
  fs := demoFs
  urlParse _ := none
  NewAPIKeyClient _ _ _ _ _ := .ok demoStore
  clientString _ := "store"


/-! ## Entity modules that announce themselves, for the example of the schedule -/

/-- Entity modules that do nothing but write their own name to the log. -/
def recordingModules : Modules Store where
  GroupTestsCreate _ xs w := (xs, logf "call" "GroupTestsCreate" [] w)
  ApplicationTestsCreate _ xs w := (xs, logf "call" "ApplicationTestsCreate" [] w)
  ProjectTestsCreate _ xs w := (xs, logf "call" "ProjectTestsCreate" [] w)
  RoleTestsCreate _ xs w := (xs, logf "call" "RoleTestsCreate" [] w)
  QueryTestsCreate _ xs w := (xs, logf "call" "QueryTestsCreate" [] w)
  PresetTestsCreate _ xs w := (xs, logf "call" "PresetTestsCreate" [] w)
  ScanTestsCreate _ xs w := (xs, logf "call" "ScanTestsCreate" [] w)
  ResultTestsCreate _ xs w := (xs, logf "call" "ResultTestsCreate" [] w)
  GroupTestsRead _ xs w := (xs, logf "call" "GroupTestsRead" [] w)
  ApplicationTestsRead _ xs w := (xs, logf "call" "ApplicationTestsRead" [] w)
  ProjectTestsRead _ xs w := (xs, logf "call" "ProjectTestsRead" [] w)
  RoleTestsRead _ xs w := (xs, logf "call" "RoleTestsRead" [] w)
  QueryTestsRead _ xs w := (xs, logf "call" "QueryTestsRead" [] w)
  PresetTestsRead _ xs w := (xs, logf "call" "PresetTestsRead" [] w)
  ScanTestsRead _ xs w := (xs, logf "call" "ScanTestsRead" [] w)
  ResultTestsRead _ xs w := (xs, logf "call" "ResultTestsRead" [] w)
  GroupTestsUpdate _ xs w := (xs, logf "call" "GroupTestsUpdate" [] w)
  ApplicationTestsUpdate _ xs w := (xs, logf "call" "ApplicationTestsUpdate" [] w)
  ProjectTestsUpdate _ xs w := (xs, logf "call" "ProjectTestsUpdate" [] w)
  RoleTestsUpdate _ xs w := (xs, logf "call" "RoleTestsUpdate" [] w)
  QueryTestsUpdate _ xs w := (xs, logf "call" "QueryTestsUpdate" [] w)
  PresetTestsUpdate _ xs w := (xs, logf "call" "PresetTestsUpdate" [] w)
  ScanTestsUpdate _ xs w := (xs, logf "call" "ScanTestsUpdate" [] w)
  ResultTestsUpdate _ xs w := (xs, logf "call" "ResultTestsUpdate" [] w)
  GroupTestsDelete _ xs w := (xs, logf "call" "GroupTestsDelete" [] w)
  ApplicationTestsDelete _ xs w := (xs, logf "call" "ApplicationTestsDelete" [] w)
  ProjectTestsDelete _ xs w := (xs, logf "call" "ProjectTestsDelete" [] w)
  RoleTestsDelete _ xs w := (xs, logf "call" "RoleTestsDelete" [] w)
  QueryTestsDelete _ xs w := (xs, logf "call" "QueryTestsDelete" [] w)
  PresetTestsDelete _ xs w := (xs, logf "call" "PresetTestsDelete" [] w)
  ScanTestsDelete _ xs w := (xs, logf "call" "ScanTestsDelete" [] w)
  ResultTestsDelete _ xs w := (xs, logf "call" "ResultTestsDelete" [] w)

/-- What a log line shows of an invocation: the name a recording module wrote, or the
phase label in a line written by the ledger functions. -/
def LogEntry.label (e : LogEntry) : String :=
  if e.level = "call" then e.format
  else
    match e.args with
    | _ :: .str CRUD :: _ => CRUD
    | _ => e.format

/-- A test set `a` whose only declaration is the user of the example. -/
def recordedSet : TestSet := { emptySet "a" "" with Users := [demoUser] }

/-! ## Delegation flattening, as the specification words it -/

/-- What the specification puts in place of one set of a document whose directory is
`currentRoot`: the flattened sets of the referenced document (`sub` gives them) when the
set carries a file reference, and the set alone, with its scan archives resolved, when
it does not.  `none` when a file does not resolve or load. -/
def specExpandSet (fs : FileSystem) (sub : String → Option (List TestSet))
    (currentRoot : String) (set : TestSet) : Option (List TestSet) :=
  if set.File != "" then
    match getFilePath fs currentRoot set.File with
    | .error _ => none
    | .ok configPath => sub configPath
  else
    match resolveScans fs currentRoot set.Scans with
    | .error _ => none
    | .ok scans => some [{ set with Scans := scans }]

/-- Every set replaced by what `f` gives for it, left to right, order preserved. -/
def specSplice (f : TestSet → Option (List TestSet)) : List TestSet → Option (List TestSet)
  | [] => some []
  | set :: rest =>
    match f set, specSplice f rest with
    | some sets, some rest1 => some (sets ++ rest1)
    | _, _ => none

/-- The flattened set sequence of the document at `path`, following file references at
most `depth` documents deep; `none` when a file does not resolve or load within that
depth. -/
def specFlatten (fs : FileSystem) : Nat → String → Option (List TestSet)
  | 0, _ => none
  | depth + 1, path =>
    match fs.Open path with
    | some _ => none
    | none =>
      match fs.Decode path { TestConfig.zero with ConfigPath := fs.Abs path } with
      | .error _ => none
      | .ok conf =>
        specSplice (specExpandSet fs (specFlatten fs depth) (fs.Dir path)) conf.Tests


/-! ## The loop over the groups of the user when no call writes the cells -/

/-- The in-memory client with a removal that also drops the group from the list in the
user object, closing the gap in place as `append(s[:i], s[i+1:]...)` does: the shorter
list is written over the first cells and the cells after it keep what they held. -/
def trimClient : Cx1Client Store :=
  { storeClient with
    RemoveUserFromGroupByID := fun s u gid =>
      if s.known u.UserID then
        ⟨⟨{ s with member := fun id =>
            if id = u.UserID then (s.member id).filter (fun n => n != gid)
            else s.member id },
          { u with Groups := u.Groups.filter (fun x => x.GroupID != gid) }, none⟩,
          fun xs => u.Groups.filter (fun x => x.GroupID != gid)
            ++ xs.drop (u.Groups.filter (fun x => x.GroupID != gid)).length⟩
      else ⟨⟨s, u, some "user not found"⟩, id⟩ }

/-- The remote system of the examples with the user `old` in the groups `g1`, `g2` and
`g3`. -/
def trioStore : Store :=
  { demoStore with
    member := fun id => if id = "old" then ["g1", "g2", "g3"] else []
    groupExists := fun g => g == "g1" || g == "g2" || g == "g3" }

/-- A declaration with a handle at address 0 that declares no group and the role `r2`. -/
def demoUserNoGroups : UserCRUD :=
  { demoUser with Groups := [], Roles := ["r2"], User := some 0 }

/-- A process state over `trioStore` in which address 0 holds the user object of the
existing user `old`. -/
def trioWorld : World Store :=
  { demoWorld with
    remote := trioStore, heap := fun _ => { UserID := "old", UserName := "old" }, next := 1 }

/-! ## A remote system that stores memberships faithfully -/

/-- A process state over `demoStore` in which address 0 holds the user object of the
existing user `old`. -/
def demoLiveWorld : World Store :=
  { demoWorld with heap := fun _ => { UserID := "old", UserName := "old" }, next := 1 }


/-- The declaration of the example selected for Update only, with no handle: nothing
created or read it before. -/
def demoUserUpdateOnly : UserCRUD := { demoUser with Test := "U" }

/-- The declaration of the example with a declared group, `g9`, that the remote system
does not have. -/
def demoUserBadGroup : UserCRUD := { demoUser with Groups := ["g9"] }

/-! # Theorems -/

/-! ## The ledger functions -/

section Ledger

variable (env : Env ρ) (failTest : Bool) (CRUD : String) (start : Int)
  (testName : String) (testId : Nat) (testObject reason : String) (w : World ρ)

@[simp] theorem LogPass_TestResults :
    (LogPass env failTest CRUD start testName testId testObject w).TestResults
      = w.TestResults ++
        [⟨failTest, if failTest then 0 else 1, CRUD, env.clock w.ticks - start, testName,
          testId, testObject,
          if failTest then "test passed but was expected to fail" else ""⟩] := by
  cases failTest <;> simp [LogPass, appendResult, logf, now]

@[simp] theorem LogFail_TestResults :
    (LogFail env failTest CRUD start testName testId testObject reason w).TestResults
      = w.TestResults ++
        [⟨failTest, if failTest then 1 else 0, CRUD, env.clock w.ticks - start, testName,
          testId, testObject, if failTest then "" else reason⟩] := by
  cases failTest <;> simp [LogFail, appendResult, logf, now]

@[simp] theorem LogSkip_TestResults :
    (LogSkip env failTest CRUD start testName testId testObject reason w).TestResults
      = w.TestResults ++
        [⟨failTest, 2, CRUD, env.clock w.ticks - start, testName, testId, testObject, ""⟩] := by
  simp [LogSkip, appendResult, logf, now]

@[simp] theorem LogPass_calls :
    (LogPass env failTest CRUD start testName testId testObject w).calls = w.calls := by
  cases failTest <;> simp [LogPass, appendResult, logf, now]

@[simp] theorem LogFail_calls :
    (LogFail env failTest CRUD start testName testId testObject reason w).calls = w.calls := by
  cases failTest <;> simp [LogFail, appendResult, logf, now]

@[simp] theorem LogSkip_calls :
    (LogSkip env failTest CRUD start testName testId testObject reason w).calls = w.calls := by
  simp [LogSkip, appendResult, logf, now]

@[simp] theorem LogPass_remote :
    (LogPass env failTest CRUD start testName testId testObject w).remote = w.remote := by
  cases failTest <;> simp [LogPass, appendResult, logf, now]

@[simp] theorem LogFail_remote :
    (LogFail env failTest CRUD start testName testId testObject reason w).remote
      = w.remote := by
  cases failTest <;> simp [LogFail, appendResult, logf, now]

@[simp] theorem LogSkip_remote :
    (LogSkip env failTest CRUD start testName testId testObject reason w).remote
      = w.remote := by
  simp [LogSkip, appendResult, logf, now]

@[simp] theorem LogPass_heap :
    (LogPass env failTest CRUD start testName testId testObject w).heap = w.heap := by
  cases failTest <;> simp [LogPass, appendResult, logf, now]

@[simp] theorem LogFail_heap :
    (LogFail env failTest CRUD start testName testId testObject reason w).heap = w.heap := by
  cases failTest <;> simp [LogFail, appendResult, logf, now]

@[simp] theorem LogSkip_heap :
    (LogSkip env failTest CRUD start testName testId testObject reason w).heap = w.heap := by
  simp [LogSkip, appendResult, logf, now]

@[simp] theorem now_TestResults : (now env w).2.TestResults = w.TestResults := rfl

@[simp] theorem now_calls : (now env w).2.calls = w.calls := rfl

@[simp] theorem now_remote : (now env w).2.remote = w.remote := rfl

@[simp] theorem now_heap : (now env w).2.heap = w.heap := rfl

@[simp] theorem now_ticks : (now env w).2.ticks = w.ticks + 1 := rfl

@[simp] theorem now_fst : (now env w).1 = env.clock w.ticks := rfl

end Ledger

/-- C1 (verdict inversion).  After an operation that errored (`errored = true`, the
module calls `LogFail`) or succeeded (`errored = false`, the module calls `LogPass`),
the ledger is the old ledger followed by one record; its verdict is pass (1) exactly
when `errored = failTest`, fail (0) exactly when `errored ≠ failTest`, and never
skip (2). -/
theorem verdict_inversion (env : Env ρ) (errored failTest : Bool) (CRUD : String)
    (start : Int) (testName : String) (testId : Nat) (testObject reason : String)
    (w : World ρ) :
    ∃ r : TestResult,
      (if errored then LogFail env failTest CRUD start testName testId testObject reason w
        else LogPass env failTest CRUD start testName testId testObject w).TestResults
        = w.TestResults ++ [r]
      ∧ (r.Result = 1 ↔ errored = failTest)
      ∧ (r.Result = 0 ↔ errored ≠ failTest)
      ∧ r.Result ≠ 2 := by
  cases errored <;> cases failTest <;> simp

/-! ## The user module never panics -/

theorem updateUserFromConfig_isSome (env : Env ρ) (t : UserCRUD) (w : World ρ) (a : Nat)
    (h : t.User = some a) : (updateUserFromConfig env t w).isSome = true := by
  unfold updateUserFromConfig
  rw [h]
  dsimp only
  repeat' split
  all_goals rfl

theorem updateUserFromConfig_none (env : Env ρ) (t : UserCRUD) (w : World ρ)
    (h : t.User = none) : updateUserFromConfig env t w = none := by
  unfold updateUserFromConfig
  rw [h]

theorem UserTestCreate_isSome (env : Env ρ) (testname : String) (t : UserCRUD)
    (w : World ρ) : (UserTestCreate env testname t w).isSome = true := by
  unfold UserTestCreate
  dsimp only
  split
  · rfl
  · rename_i test_User _
    have h := updateUserFromConfig_isSome env
      (attach t test_User (callLookup (.CreateUser { UserName := t.Name, Email := t.Email })
        (fun r => env.client.CreateUser r { UserName := t.Name, Email := t.Email }) w).2).1
      (attach t test_User (callLookup (.CreateUser { UserName := t.Name, Email := t.Email })
        (fun r => env.client.CreateUser r { UserName := t.Name, Email := t.Email }) w).2).2
      _ rfl
    split
    · rename_i h2
      rw [h2] at h
      exact absurd h (by simp)
    · rfl

theorem UserTestRead_isSome (env : Env ρ) (testname : String) (t : UserCRUD)
    (w : World ρ) : (UserTestRead env testname t w).isSome = true := by
  unfold UserTestRead
  dsimp only
  split <;> rfl

theorem UserTestUpdate_isSome (env : Env ρ) (testname : String) (t : UserCRUD)
    (w : World ρ) (h : t.User ≠ none) : (UserTestUpdate env testname t w).isSome = true := by
  obtain ⟨a, ha⟩ := Option.ne_none_iff_exists'.mp h
  have h1 := updateUserFromConfig_isSome env t w a ha
  unfold UserTestUpdate
  obtain ⟨r, hr⟩ := Option.isSome_iff_exists.mp h1
  obtain ⟨e, w1⟩ := r
  rw [hr]
  cases e with
  | none => simp [ha]
  | some err => rfl

theorem UserTestDelete_isSome (env : Env ρ) (testname : String) (t : UserCRUD)
    (w : World ρ) (h : t.User ≠ none) : (UserTestDelete env testname t w).isSome = true := by
  obtain ⟨a, ha⟩ := Option.ne_none_iff_exists'.mp h
  unfold UserTestDelete
  rw [ha]
  dsimp only
  split <;> rfl

theorem forRange_isSome {α σ : Type} (body : Nat → α → σ → Option (α × σ))
    (h : ∀ id x s, (body id x s).isSome = true) (xs : List α) :
    ∀ (i : Nat) (s : σ), (forRange body i xs s).isSome = true := by
  induction xs with
  | nil => intro i s; rfl
  | cons x rest ih =>
    intro i s
    obtain ⟨⟨x1, s1⟩, h1⟩ := Option.isSome_iff_exists.mp (h i x s)
    obtain ⟨⟨rest1, s2⟩, h2⟩ := Option.isSome_iff_exists.mp (ih (i + 1) s1)
    simp [forRange, h1, h2]

theorem UserTestsCreateBody_isSome (env : Env ρ) (testname : String) (id : Nat)
    (t : UserCRUD) (s : Bool × World ρ) :
    (UserTestsCreateBody env testname id t s).isSome = true := by
  unfold UserTestsCreateBody
  have h := UserTestCreate_isSome env testname t (now env s.2).2
  repeat' split
  all_goals first | rfl | simp_all

theorem UserTestsReadBody_isSome (env : Env ρ) (testname : String) (id : Nat)
    (t : UserCRUD) (s : Bool × World ρ) :
    (UserTestsReadBody env testname id t s).isSome = true := by
  unfold UserTestsReadBody
  have h := UserTestRead_isSome env testname t (now env s.2).2
  repeat' split
  all_goals first | rfl | simp_all

theorem UserTestsUpdateBody_isSome (env : Env ρ) (testname : String) (id : Nat)
    (t : UserCRUD) (s : Bool × World ρ) :
    (UserTestsUpdateBody env testname id t s).isSome = true := by
  unfold UserTestsUpdateBody
  by_cases hu : t.User = none
  · simp only [hu, if_true]
    split <;> rfl
  · have h := UserTestUpdate_isSome env testname t (now env s.2).2 hu
    simp only [hu, if_false]
    repeat' split
    all_goals first | rfl | simp_all

theorem UserTestsDeleteBody_isSome (env : Env ρ) (testname : String) (id : Nat)
    (t : UserCRUD) (s : Bool × World ρ) :
    (UserTestsDeleteBody env testname id t s).isSome = true := by
  unfold UserTestsDeleteBody
  by_cases hu : t.User = none
  · simp only [hu, if_true]
    split <;> rfl
  · have h := UserTestDelete_isSome env testname t (now env s.2).2 hu
    simp only [hu, if_false]
    repeat' split
    all_goals first | rfl | simp_all

theorem UserTestsCreate_isSome (env : Env ρ) (testname : String) (users : List UserCRUD)
    (w : World ρ) : (UserTestsCreate env testname users w).isSome = true :=
  forRange_isSome _ (UserTestsCreateBody_isSome env testname) users 0 (true, w)

theorem UserTestsRead_isSome (env : Env ρ) (testname : String) (users : List UserCRUD)
    (w : World ρ) : (UserTestsRead env testname users w).isSome = true :=
  forRange_isSome _ (UserTestsReadBody_isSome env testname) users 0 (true, w)

theorem UserTestsUpdate_isSome (env : Env ρ) (testname : String) (users : List UserCRUD)
    (w : World ρ) : (UserTestsUpdate env testname users w).isSome = true :=
  forRange_isSome _ (UserTestsUpdateBody_isSome env testname) users 0 (true, w)

theorem UserTestsDelete_isSome (env : Env ρ) (testname : String) (users : List UserCRUD)
    (w : World ρ) : (UserTestsDelete env testname users w).isSome = true :=
  forRange_isSome _ (UserTestsDeleteBody_isSome env testname) users 0 (true, w)

/-! ## The phase scheduler -/

theorem invokeUsers_eq (i : Nat) (p : Phase)
    (f : World ρ → Option (List UserCRUD × (Bool × World ρ)))
    (hf : ∀ w, (f w).isSome = true) (s : World ρ × List Invocation) :
    invokeUsers i p f s
      = some (((f s.1).get (hf s.1)).1,
          (((f s.1).get (hf s.1)).2.2, s.2 ++ [⟨i, p, .User⟩])) := by
  unfold invokeUsers
  obtain ⟨⟨us, b, w⟩, h⟩ := Option.isSome_iff_exists.mp (hf s.1)
  simp [h]

theorem TestCreate_trace (env : Env ρ) (m : Modules ρ) (i : Nat) (testname : String)
    (tests : TestSet) (s : World ρ × List Invocation) :
    ∃ tests1 w1, TestCreate env m i testname tests s
      = some (tests1, (w1, s.2 ++ kindOrder.map fun k => ⟨i, .Create, k⟩)) := by
  simp only [TestCreate]
  rw [invokeUsers_eq i .Create _ (UserTestsCreate_isSome env testname tests.Users)]
  dsimp only
  refine ⟨_, _, congrArg some (Prod.ext rfl (Prod.ext rfl ?_))⟩
  simp [invoke, kindOrder]

theorem TestRead_trace (env : Env ρ) (m : Modules ρ) (i : Nat) (testname : String)
    (tests : TestSet) (s : World ρ × List Invocation) :
    ∃ tests1 w1, TestRead env m i testname tests s
      = some (tests1, (w1, s.2 ++ kindOrder.map fun k => ⟨i, .Read, k⟩)) := by
  simp only [TestRead]
  rw [invokeUsers_eq i .Read _ (UserTestsRead_isSome env testname tests.Users)]
  dsimp only
  refine ⟨_, _, congrArg some (Prod.ext rfl (Prod.ext rfl ?_))⟩
  simp [invoke, kindOrder]

theorem TestUpdate_trace (env : Env ρ) (m : Modules ρ) (i : Nat) (testname : String)
    (tests : TestSet) (s : World ρ × List Invocation) :
    ∃ tests1 w1, TestUpdate env m i testname tests s
      = some (tests1, (w1, s.2 ++ kindOrder.map fun k => ⟨i, .Update, k⟩)) := by
  simp only [TestUpdate]
  rw [invokeUsers_eq i .Update _ (UserTestsUpdate_isSome env testname tests.Users)]
  dsimp only
  refine ⟨_, _, congrArg some (Prod.ext rfl (Prod.ext rfl ?_))⟩
  simp [invoke, kindOrder]

theorem TestDelete_trace (env : Env ρ) (m : Modules ρ) (i : Nat) (testname : String)
    (tests : TestSet) (s : World ρ × List Invocation) :
    ∃ tests1 w1, TestDelete env m i testname tests s
      = some (tests1, (w1, s.2 ++ kindOrder.map fun k => ⟨i, .Delete, k⟩)) := by
  simp only [TestDelete]
  rw [invokeUsers_eq i .Delete _ (UserTestsDelete_isSome env testname tests.Users)]
  dsimp only
  refine ⟨_, _, congrArg some (Prod.ext rfl (Prod.ext rfl ?_))⟩
  simp [invoke, kindOrder]

theorem RunTestsBody_trace (env : Env ρ) (m : Modules ρ) (i : Nat) (t : TestSet)
    (s : World ρ × List Invocation) :
    ∃ t1 w1, RunTestsBody env m i t s = some (t1, (w1, s.2 ++ setSchedule i)) := by
  have chain : ∀ s0 : World ρ × List Invocation, ∃ t1 w1,
      (match TestCreate env m i t.Name t s0 with
        | none => none
        | some (t1, s1) =>
          match TestRead env m i t.Name t1 s1 with
          | none => none
          | some (t2, s2) =>
            match TestUpdate env m i t.Name t2 s2 with
            | none => none
            | some (t3, s3) => TestDelete env m i t.Name t3 s3)
        = some (t1, (w1, s0.2 ++ setSchedule i)) := by
    intro s0
    obtain ⟨t1, w1, h1⟩ := TestCreate_trace env m i t.Name t s0
    obtain ⟨t2, w2, h2⟩ := TestRead_trace env m i t.Name t1 (w1, _)
    obtain ⟨t3, w3, h3⟩ := TestUpdate_trace env m i t.Name t2 (w2, _)
    obtain ⟨t4, w4, h4⟩ := TestDelete_trace env m i t.Name t3 (w3, _)
    refine ⟨t4, w4, ?_⟩
    rw [h1]
    dsimp only
    rw [h2]
    dsimp only
    rw [h3]
    dsimp only
    rw [h4]
    simp [setSchedule, phaseOrder, List.append_assoc]
  by_cases hw : t.Wait > 0
  · simp only [RunTestsBody, hw, if_true]
    exact chain _
  · simp only [RunTestsBody, hw, if_false]
    exact chain _

theorem forRange_RunTestsBody (env : Env ρ) (m : Modules ρ) (tests : List TestSet) :
    ∀ (i : Nat) (s : World ρ × List Invocation),
      ∃ tests1 w1, forRange (RunTestsBody env m) i tests s
        = some (tests1, (w1, s.2 ++ schedule i tests.length))
        ∧ tests1.length = tests.length := by
  induction tests with
  | nil => intro i s; exact ⟨[], s.1, by simp [forRange, schedule], rfl⟩
  | cons t rest ih =>
    intro i s
    obtain ⟨t1, w1, h1⟩ := RunTestsBody_trace env m i t s
    obtain ⟨rest1, w2, h2, hl⟩ := ih (i + 1) (w1, s.2 ++ setSchedule i)
    refine ⟨t1 :: rest1, w2, ?_, by simp [hl]⟩
    simp [forRange, h1, h2, schedule, List.range'_succ, List.append_assoc]

theorem setSchedule_pairwise (i : Nat) : (setSchedule i).Pairwise Invocation.before := by
  have h : setSchedule i
      = ((phaseOrder.flatMap fun p => kindOrder.map fun k => (p, k)).map
          fun pk => (⟨i, pk.1, pk.2⟩ : Invocation)) := by
    simp [setSchedule, phaseOrder, kindOrder]
  rw [h, List.pairwise_map]
  have h0 : ((phaseOrder.flatMap fun p => kindOrder.map fun k => (p, k))).Pairwise
      (fun a b : Phase × Kind =>
        a.1.rank < b.1.rank ∨ (a.1 = b.1 ∧ a.2.rank < b.2.rank)) := by
    decide
  exact h0.imp fun hab => Or.inr ⟨rfl, hab⟩

theorem mem_setSchedule {i : Nat} {a : Invocation} (h : a ∈ setSchedule i) : a.set = i := by
  simp only [setSchedule, List.mem_flatMap, List.mem_map] at h
  obtain ⟨p, _, k, _, rfl⟩ := h
  rfl

theorem schedule_pairwise (i n : Nat) : (schedule i n).Pairwise Invocation.before := by
  unfold schedule
  rw [List.pairwise_flatMap]
  refine ⟨fun a _ => setSchedule_pairwise a, ?_⟩
  have hr : (List.range' i n).Pairwise (· < ·) := List.pairwise_lt_range' i n
  refine hr.imp ?_
  intro a b hab x hx y hy
  exact Or.inl (by rw [mem_setSchedule hx, mem_setSchedule hy]; exact hab)

theorem runSchedule_append (env : Env ρ) (m : Modules ρ) (testname : String)
    (xs ys : List Invocation) :
    ∀ s : TestSet × World ρ,
      runSchedule env m testname (xs ++ ys) s
        = (runSchedule env m testname xs s).bind (runSchedule env m testname ys) := by
  induction xs with
  | nil => intro s; rfl
  | cons x rest ih =>
    intro s
    simp only [List.cons_append, runSchedule]
    split
    · rfl
    · exact ih _

theorem TestCreate_eq (env : Env ρ) (m : Modules ρ) (i : Nat) (testname : String)
    (tests : TestSet) (s : World ρ × List Invocation) :
    TestCreate env m i testname tests s
      = (runSchedule env m testname (kindOrder.map fun k => ⟨i, .Create, k⟩)
          (tests, s.1)).map
        fun r => (r.1, (r.2, s.2 ++ kindOrder.map fun k => ⟨i, .Create, k⟩)) := by
  simp only [TestCreate, invokeUsers, invoke, kindOrder, List.map, runSchedule, runEntry,
    UserTests, Modules.GroupTests, Modules.ApplicationTests, Modules.ProjectTests,
    Modules.RoleTests, Modules.QueryTests, Modules.PresetTests, Modules.ScanTests,
    Modules.ResultTests]
  cases h : UserTestsCreate env testname tests.Users
      (m.RoleTestsCreate testname tests.Roles
        (m.ProjectTestsCreate testname tests.Projects
          (m.ApplicationTestsCreate testname tests.Applications
            (m.GroupTestsCreate testname tests.Groups s.1).2).2).2).2 with
  | none => rfl
  | some r => simp

theorem TestRead_eq (env : Env ρ) (m : Modules ρ) (i : Nat) (testname : String)
    (tests : TestSet) (s : World ρ × List Invocation) :
    TestRead env m i testname tests s
      = (runSchedule env m testname (kindOrder.map fun k => ⟨i, .Read, k⟩)
          (tests, s.1)).map
        fun r => (r.1, (r.2, s.2 ++ kindOrder.map fun k => ⟨i, .Read, k⟩)) := by
  simp only [TestRead, invokeUsers, invoke, kindOrder, List.map, runSchedule, runEntry,
    UserTests, Modules.GroupTests, Modules.ApplicationTests, Modules.ProjectTests,
    Modules.RoleTests, Modules.QueryTests, Modules.PresetTests, Modules.ScanTests,
    Modules.ResultTests]
  cases h : UserTestsRead env testname tests.Users
      (m.RoleTestsRead testname tests.Roles
        (m.ProjectTestsRead testname tests.Projects
          (m.ApplicationTestsRead testname tests.Applications
            (m.GroupTestsRead testname tests.Groups s.1).2).2).2).2 with
  | none => rfl
  | some r => simp

theorem TestUpdate_eq (env : Env ρ) (m : Modules ρ) (i : Nat) (testname : String)
    (tests : TestSet) (s : World ρ × List Invocation) :
    TestUpdate env m i testname tests s
      = (runSchedule env m testname (kindOrder.map fun k => ⟨i, .Update, k⟩)
          (tests, s.1)).map
        fun r => (r.1, (r.2, s.2 ++ kindOrder.map fun k => ⟨i, .Update, k⟩)) := by
  simp only [TestUpdate, invokeUsers, invoke, kindOrder, List.map, runSchedule, runEntry,
    UserTests, Modules.GroupTests, Modules.ApplicationTests, Modules.ProjectTests,
    Modules.RoleTests, Modules.QueryTests, Modules.PresetTests, Modules.ScanTests,
    Modules.ResultTests]
  cases h : UserTestsUpdate env testname tests.Users
      (m.RoleTestsUpdate testname tests.Roles
        (m.ProjectTestsUpdate testname tests.Projects
          (m.ApplicationTestsUpdate testname tests.Applications
            (m.GroupTestsUpdate testname tests.Groups s.1).2).2).2).2 with
  | none => rfl
  | some r => simp

theorem TestDelete_eq (env : Env ρ) (m : Modules ρ) (i : Nat) (testname : String)
    (tests : TestSet) (s : World ρ × List Invocation) :
    TestDelete env m i testname tests s
      = (runSchedule env m testname (kindOrder.map fun k => ⟨i, .Delete, k⟩)
          (tests, s.1)).map
        fun r => (r.1, (r.2, s.2 ++ kindOrder.map fun k => ⟨i, .Delete, k⟩)) := by
  simp only [TestDelete, invokeUsers, invoke, kindOrder, List.map, runSchedule, runEntry,
    UserTests, Modules.GroupTests, Modules.ApplicationTests, Modules.ProjectTests,
    Modules.RoleTests, Modules.QueryTests, Modules.PresetTests, Modules.ScanTests,
    Modules.ResultTests]
  cases h : UserTestsDelete env testname tests.Users
      (m.RoleTestsDelete testname tests.Roles
        (m.ProjectTestsDelete testname tests.Projects
          (m.ApplicationTestsDelete testname tests.Applications
            (m.GroupTestsDelete testname tests.Groups s.1).2).2).2).2 with
  | none => rfl
  | some r => simp

theorem RunTestsBody_eq (env : Env ρ) (m : Modules ρ) (i : Nat) (t : TestSet)
    (s : World ρ × List Invocation) :
    RunTestsBody env m i t s
      = (runSchedule env m t.Name (setSchedule i)
          (t, if t.Wait > 0 then logf "info" "Waiting for %d seconds" [.int t.Wait] s.1
            else s.1)).map
        fun r => (r.1, (r.2, s.2 ++ setSchedule i)) := by
  have hs : setSchedule i
      = (kindOrder.map fun k => (⟨i, .Create, k⟩ : Invocation))
        ++ ((kindOrder.map fun k => (⟨i, .Read, k⟩ : Invocation))
        ++ ((kindOrder.map fun k => (⟨i, .Update, k⟩ : Invocation))
        ++ (kindOrder.map fun k => (⟨i, .Delete, k⟩ : Invocation)))) := by
    simp [setSchedule, phaseOrder]
  have h0 : (if t.Wait > 0 then
        (logf "info" "Waiting for %d seconds" [.int t.Wait] s.1, s.2) else s)
      = ((if t.Wait > 0 then logf "info" "Waiting for %d seconds" [.int t.Wait] s.1
          else s.1), s.2) := by
    split <;> rfl
  simp only [RunTestsBody, h0]
  rw [hs, runSchedule_append, TestCreate_eq]
  cases runSchedule env m t.Name (kindOrder.map fun k => (⟨i, .Create, k⟩ : Invocation))
      (t, if t.Wait > 0 then logf "info" "Waiting for %d seconds" [.int t.Wait] s.1
        else s.1) with
  | none => rfl
  | some r1 =>
    simp only [Option.map_some', Option.some_bind]
    rw [runSchedule_append, TestRead_eq]
    cases runSchedule env m t.Name (kindOrder.map fun k => (⟨i, .Read, k⟩ : Invocation))
        r1 with
    | none => rfl
    | some r2 =>
      simp only [Option.map_some', Option.some_bind]
      rw [runSchedule_append, TestUpdate_eq]
      cases runSchedule env m t.Name
          (kindOrder.map fun k => (⟨i, .Update, k⟩ : Invocation)) r2 with
      | none => rfl
      | some r3 =>
        simp only [Option.map_some', Option.some_bind]
        rw [TestDelete_eq]
        cases runSchedule env m t.Name
            (kindOrder.map fun k => (⟨i, .Delete, k⟩ : Invocation)) r3 with
        | none => rfl
        | some r4 => simp [List.append_assoc]

theorem forRange_RunTestsBody_eq (env : Env ρ) (m : Modules ρ) (tests : List TestSet) :
    ∀ (i : Nat) (s : World ρ × List Invocation),
      forRange (RunTestsBody env m) i tests s
        = (runSchedules env m i tests s.1).map
          fun r => (r.1, (r.2, s.2 ++ schedule i tests.length)) := by
  induction tests with
  | nil => intro i s; simp [forRange, runSchedules, schedule]
  | cons t rest ih =>
    intro i s
    simp only [forRange, runSchedules, RunTestsBody_eq]
    cases runSchedule env m t.Name (setSchedule i)
        (t, if t.Wait > 0 then logf "info" "Waiting for %d seconds" [.int t.Wait] s.1
          else s.1) with
    | none => rfl
    | some r1 =>
      simp only [Option.map_some', ih]
      cases runSchedules env m (i + 1) rest r1.2 with
      | none => rfl
      | some r2 => simp [schedule, List.range'_succ, List.append_assoc]

/-- C2 (phase scheduling).  For every list of test sets, whatever the entity modules
and the client do, `RunTests` returns, and the entry points it has invoked are, in
order: for each set in document order, Create for Group, Application, Project, Role,
User, Query, Preset, Scan, Result, then Read, Update and Delete for the same nine kinds.
Hence every invocation precedes every invocation of a later set, and within a set every
invocation of a later phase.  The sets and the state that `RunTests` returns are those
that carrying out these invocations one after the other returns, each by the entry point
of its kind for its phase, on the list of its kind of its set (`runSchedules`). -/
theorem RunTests_schedule (env : Env ρ) (m : Modules ρ) (tests : List TestSet)
    (w : World ρ) :
    ∃ tests1 w1 trace, RunTests env m tests w = some (tests1, (w1, trace))
      ∧ tests1.length = tests.length
      ∧ trace = (List.range tests.length).flatMap (fun i =>
          [Phase.Create, Phase.Read, Phase.Update, Phase.Delete].flatMap fun p =>
            [Kind.Group, Kind.Application, Kind.Project, Kind.Role, Kind.User, Kind.Query,
              Kind.Preset, Kind.Scan, Kind.Result].map fun k => (⟨i, p, k⟩ : Invocation))
      ∧ trace.Pairwise Invocation.before
      ∧ runSchedules env m 0 tests w = some (tests1, w1) := by
  obtain ⟨tests1, w1, h, hl⟩ := forRange_RunTestsBody env m tests 0 (w, [])
  have h2 := forRange_RunTestsBody_eq env m tests 0 (w, [])
  rw [h] at h2
  refine ⟨tests1, w1, schedule 0 tests.length, ?_, hl, ?_, schedule_pairwise _ _, ?_⟩
  · simpa [RunTests] using h
  · simp only [schedule, List.range_eq_range']
    congr 1
  · cases hr : runSchedules env m 0 tests w with
    | none => rw [hr] at h2; cases h2
    | some r =>
      rw [hr] at h2
      simp only [Option.map_some', Option.some.injEq, Prod.mk.injEq] at h2
      rw [h2.1, h2.2.1]

/-- The schedule of C2 seen from the modules: with entity modules that write their own
name to the log, the run over one set that declares the user of the example leaves these
lines, in this order (the user module shows through the lines of the ledger
functions). -/
theorem RunTests_recorded :
    (RunTests storeEnv recordingModules [recordedSet] demoWorld).map
        (fun r => r.2.1.log.map LogEntry.label)
      = some ["GroupTestsCreate", "ApplicationTestsCreate", "ProjectTestsCreate",
        "RoleTestsCreate", "Create User", "QueryTestsCreate",
        "PresetTestsCreate", "ScanTestsCreate", "ResultTestsCreate",
        "GroupTestsRead", "ApplicationTestsRead", "ProjectTestsRead",
        "RoleTestsRead", "Read User", "QueryTestsRead",
        "PresetTestsRead", "ScanTestsRead", "ResultTestsRead",
        "GroupTestsUpdate", "ApplicationTestsUpdate", "ProjectTestsUpdate",
        "RoleTestsUpdate", "Update User", "QueryTestsUpdate",
        "PresetTestsUpdate", "ScanTestsUpdate", "ResultTestsUpdate",
        "GroupTestsDelete", "ApplicationTestsDelete", "ProjectTestsDelete",
        "RoleTestsDelete", "Delete User", "QueryTestsDelete",
        "PresetTestsDelete", "ScanTestsDelete", "ResultTestsDelete"] := by
  decide

/-! ## The user operations leave the ledger alone -/

section Frame

variable (env : Env ρ)

@[simp] theorem callUser_TestResults (k : Call) (f : ρ → User → UserReply ρ) (a : Nat)
    (w : World ρ) : (callUser k f a w).2.TestResults = w.TestResults := rfl

@[simp] theorem callLookup_TestResults {α : Type} (k : Call) (f : ρ → Reply ρ α)
    (w : World ρ) : (callLookup k f w).2.TestResults = w.TestResults := rfl

@[simp] theorem attach_TestResults (t : UserCRUD) (u : User) (w : World ρ) :
    (attach t u w).2.TestResults = w.TestResults := rfl

@[simp] theorem addGroups_TestResults (a : Nat) (gs : List String) :
    ∀ w : World ρ, (addGroups env a gs w).2.TestResults = w.TestResults := by
  induction gs with
  | nil => intro w; rfl
  | cons g rest ih =>
    intro w
    simp only [addGroups]
    repeat' split
    all_goals simp [ih]

@[simp] theorem removeGroups_TestResults (t : UserCRUD) (a : Nat) (left : Nat) :
    ∀ (i : Nat) (cells : List Group) (w : World ρ),
      (removeGroups env t a left i cells w).2.TestResults = w.TestResults := by
  induction left with
  | zero => intro i cells w; rfl
  | succ n ih =>
    intro i cells w
    simp only [removeGroups]
    repeat' split
    all_goals simp [ih]

@[simp] theorem newRoles_TestResults (a : Nat) (ns : List String) :
    ∀ (acc : List Role) (w : World ρ),
      (newRoles env a ns acc w).2.TestResults = w.TestResults := by
  induction ns with
  | nil => intro acc w; rfl
  | cons n rest ih =>
    intro acc w
    simp only [newRoles]
    repeat' split
    all_goals simp [ih]

theorem updateUserFromConfig_TestResults (t : UserCRUD) (w : World ρ)
    (e : Option String) (w1 : World ρ)
    (h : updateUserFromConfig env t w = some (e, w1)) :
    w1.TestResults = w.TestResults := by
  unfold updateUserFromConfig at h
  split at h
  · cases h
  · dsimp only at h
    repeat' split at h
    all_goals
      simp only [Option.some.injEq, Prod.mk.injEq] at h
      obtain ⟨-, rfl⟩ := h
      simp

theorem UserTestCreate_TestResults (testname : String) (t : UserCRUD) (w : World ρ)
    (t1 : UserCRUD) (e : Option String) (w1 : World ρ)
    (h : UserTestCreate env testname t w = some (t1, e, w1)) :
    w1.TestResults = w.TestResults := by
  unfold UserTestCreate at h
  dsimp only at h
  split at h
  · cases h; rfl
  · split at h
    · cases h
    · rename_i h2
      cases h
      simpa using updateUserFromConfig_TestResults env _ _ _ _ h2

theorem UserTestRead_TestResults (testname : String) (t : UserCRUD) (w : World ρ)
    (t1 : UserCRUD) (e : Option String) (w1 : World ρ)
    (h : UserTestRead env testname t w = some (t1, e, w1)) :
    w1.TestResults = w.TestResults := by
  unfold UserTestRead at h
  dsimp only at h
  split at h <;> cases h <;> rfl

theorem UserTestUpdate_TestResults (testname : String) (t : UserCRUD) (w : World ρ)
    (t1 : UserCRUD) (e : Option String) (w1 : World ρ)
    (h : UserTestUpdate env testname t w = some (t1, e, w1)) :
    w1.TestResults = w.TestResults := by
  unfold UserTestUpdate at h
  split at h
  · cases h
  · rename_i h2
    cases h
    exact updateUserFromConfig_TestResults env _ _ _ _ h2
  · rename_i h2
    split at h
    · cases h
    · cases h
      simpa using updateUserFromConfig_TestResults env _ _ _ _ h2

theorem UserTestDelete_TestResults (testname : String) (t : UserCRUD) (w : World ρ)
    (t1 : UserCRUD) (e : Option String) (w1 : World ρ)
    (h : UserTestDelete env testname t w = some (t1, e, w1)) :
    w1.TestResults = w.TestResults := by
  unfold UserTestDelete at h
  split at h
  · cases h
  · dsimp only at h
    split at h <;> cases h <;> rfl

end Frame

/-! ## The loops of the user module -/

theorem forRange_append {α σ : Type} (body : Nat → α → σ → Option (α × σ))
    (xs ys : List α) :
    ∀ (i : Nat) (s : σ),
      forRange body i (xs ++ ys) s
        = match forRange body i xs s with
          | none => none
          | some (xs1, s1) =>
            match forRange body (i + xs.length) ys s1 with
            | none => none
            | some (ys1, s2) => some (xs1 ++ ys1, s2) := by
  induction xs with
  | nil =>
    intro i s
    simp only [List.nil_append, forRange, List.length_nil, Nat.add_zero]
    cases forRange body i ys s with
    | none => rfl
    | some r => rfl
  | cons x rest ih =>
    intro i s
    have e1 : forRange body i (x :: (rest ++ ys)) s
        = match body i x s with
          | none => none
          | some (x1, s1) =>
            match forRange body (i + 1) (rest ++ ys) s1 with
            | none => none
            | some (rest1, s2) => some (x1 :: rest1, s2) := rfl
    have e2 : forRange body i (x :: rest) s
        = match body i x s with
          | none => none
          | some (x1, s1) =>
            match forRange body (i + 1) rest s1 with
            | none => none
            | some (rest1, s2) => some (x1 :: rest1, s2) := rfl
    rw [List.cons_append, e1, e2]
    cases body i x s with
    | none => rfl
    | some r =>
      obtain ⟨x1, s1⟩ := r
      dsimp only
      rw [ih]
      have e3 : i + 1 + rest.length = i + (x :: rest).length := by
        simp only [List.length_cons]; omega
      rw [e3]
      cases forRange body (i + 1) rest s1 with
      | none => rfl
      | some r2 =>
        obtain ⟨rest1, s2⟩ := r2
        dsimp only
        cases forRange body (i + (x :: rest).length) ys s2 with
        | none => rfl
        | some r3 => rfl

theorem forRange_iteration {α σ : Type} (body : Nat → α → σ → Option (α × σ))
    (h : ∀ id x s, (body id x s).isSome = true) (pre : List α) (t : α) (post : List α)
    (s : σ) :
    ∃ s1 t1 s2, Iteration body (forRange body 0 (pre ++ t :: post) s) pre t post s s1 t1 s2 := by
  obtain ⟨⟨pre1, s1⟩, h1⟩ := Option.isSome_iff_exists.mp (forRange_isSome body h pre 0 s)
  obtain ⟨⟨t1, s2⟩, h2⟩ := Option.isSome_iff_exists.mp (h pre.length t s1)
  obtain ⟨⟨post1, s3⟩, h3⟩ := Option.isSome_iff_exists.mp
    (forRange_isSome body h post (pre.length + 1) s2)
  refine ⟨s1, t1, s2, pre1, post1, s3, h1, h2, h3, ?_⟩
  rw [forRange_append, h1]
  simp [forRange, h2, h3]

/-! ## Client calls are only ever added to the record -/

section Calls

variable (env : Env ρ)

theorem callsExtend_refl (w : World ρ) : ∃ cs, w.calls = w.calls ++ cs := ⟨[], by simp⟩

theorem callUser_calls (k : Call) (f : ρ → User → UserReply ρ) (a : Nat)
    (w0 w : World ρ) (h : ∃ cs, w.calls = w0.calls ++ cs) :
    ∃ cs, (callUser k f a w).2.calls = w0.calls ++ cs := by
  obtain ⟨cs, h⟩ := h
  exact ⟨cs ++ [k], by simp [callUser, h]⟩

theorem callLookup_calls {α : Type} (k : Call) (f : ρ → Reply ρ α)
    (w0 w : World ρ) (h : ∃ cs, w.calls = w0.calls ++ cs) :
    ∃ cs, (callLookup k f w).2.calls = w0.calls ++ cs := by
  obtain ⟨cs, h⟩ := h
  exact ⟨cs ++ [k], by simp [callLookup, h]⟩

theorem attach_calls (t : UserCRUD) (u : User)
    (w0 w : World ρ) (h : ∃ cs, w.calls = w0.calls ++ cs) :
    ∃ cs, (attach t u w).2.calls = w0.calls ++ cs := h

theorem addGroups_calls (a : Nat) (gs : List String) :
    ∀ w0 w : World ρ, (∃ cs, w.calls = w0.calls ++ cs) →
      ∃ cs, (addGroups env a gs w).2.calls = w0.calls ++ cs := by
  induction gs with
  | nil => intro w0 w h; exact h
  | cons g rest ih =>
    intro w0 w h
    simp only [addGroups]
    repeat' split
    all_goals
      repeat with_reducible (first
        | exact h
        | apply ih
        | apply callUser_calls
        | apply callLookup_calls)

theorem removeGroups_calls (t : UserCRUD) (a : Nat) (left : Nat) :
    ∀ (i : Nat) (cells : List Group) (w0 w : World ρ), (∃ cs, w.calls = w0.calls ++ cs) →
      ∃ cs, (removeGroups env t a left i cells w).2.calls = w0.calls ++ cs := by
  induction left with
  | zero => intro i cells w0 w h; exact h
  | succ n ih =>
    intro i cells w0 w h
    simp only [removeGroups]
    repeat' split
    all_goals
      repeat with_reducible (first
        | exact h
        | apply ih
        | apply callUser_calls
        | apply callLookup_calls)

theorem newRoles_calls (a : Nat) (ns : List String) :
    ∀ (acc : List Role) (w0 w : World ρ), (∃ cs, w.calls = w0.calls ++ cs) →
      ∃ cs, (newRoles env a ns acc w).2.calls = w0.calls ++ cs := by
  induction ns with
  | nil => intro acc w0 w h; exact h
  | cons n rest ih =>
    intro acc w0 w h
    simp only [newRoles]
    repeat' split
    all_goals
      repeat with_reducible (first
        | exact h
        | apply ih
        | apply callUser_calls
        | apply callLookup_calls)

theorem updateUserFromConfig_calls (t : UserCRUD) (w0 w : World ρ)
    (e : Option String) (w1 : World ρ) (h0 : ∃ cs, w.calls = w0.calls ++ cs)
    (h : updateUserFromConfig env t w = some (e, w1)) :
    ∃ cs, w1.calls = w0.calls ++ cs := by
  unfold updateUserFromConfig at h
  split at h
  · cases h
  · dsimp only at h
    repeat' split at h
    all_goals
      simp only [Option.some.injEq, Prod.mk.injEq] at h
      obtain ⟨-, rfl⟩ := h
    all_goals
      repeat with_reducible (first
        | exact h0
        | apply callUser_calls
        | apply newRoles_calls
        | apply removeGroups_calls
        | apply addGroups_calls)

end Calls

/-! ## One iteration of each loop of the user module -/

section Bodies

variable (env : Env ρ) (testname : String) (id : Nat) (t : UserCRUD) (s : Bool × World ρ)

theorem UserTestCreate_calls (w : World ρ) (t1 : UserCRUD) (e : Option String)
    (w1 : World ρ) (h : UserTestCreate env testname t w = some (t1, e, w1)) :
    ∃ cs, w1.calls
      = w.calls ++ Call.CreateUser { UserName := t.Name, Email := t.Email } :: cs := by
  unfold UserTestCreate at h
  dsimp only at h
  split at h
  · cases h
    exact ⟨[], rfl⟩
  · split at h
    · cases h
    · rename_i h2
      cases h
      obtain ⟨cs, hcs⟩ := updateUserFromConfig_calls env _ _ _ _ _ (callsExtend_refl _) h2
      exact ⟨cs, by rw [hcs]; simp [attach, callLookup]⟩

theorem UserTestRead_calls (w : World ρ) (t1 : UserCRUD) (e : Option String)
    (w1 : World ρ) (h : UserTestRead env testname t w = some (t1, e, w1)) :
    w1.calls = w.calls ++ [Call.GetUserByUserName t.Name] := by
  unfold UserTestRead at h
  dsimp only at h
  split at h <;> cases h <;> rfl

theorem verdict_ne_skip (b : Bool) (x y : Nat) (hx : x ≤ 1) (hy : y ≤ 1) :
    ((if b then x else y) = 2 ↔ False)
      ∧ ((if b then x else y) = 0 ∨ (if b then x else y) = 1
        ∨ (if b then x else y) = 2) := by
  cases b <;> simp <;> omega

theorem UserTestsCreateBody_spec (hsel : IsCreate t.Test = true) :
    ∃ t1 s1 r, UserTestsCreateBody env testname id t s = some (t1, s1)
      ∧ s1.2.TestResults = s.2.TestResults ++ [r]
      ∧ r.Id = id + 1 ∧ r.CRUD = "Create User" ∧ r.Name = testname
      ∧ (r.Result = 2 ↔ (t.Name = "" ∨ t.Email = ""))
      ∧ (r.Result = 0 ∨ r.Result = 1 ∨ r.Result = 2)
      ∧ ((t.Name = "" ∨ t.Email = "") →
          t1 = t ∧ s1.2.calls = s.2.calls ∧ s1.2.remote = s.2.remote
            ∧ s1.2.heap = s.2.heap)
      ∧ (¬(t.Name = "" ∨ t.Email = "") →
          ∃ cs, s1.2.calls
            = s.2.calls ++ Call.CreateUser { UserName := t.Name, Email := t.Email } :: cs) := by
  unfold UserTestsCreateBody
  rw [if_pos hsel]
  by_cases hc : t.Name = "" ∨ t.Email = ""
  · have hb : (t.Name == "" || t.Email == "") = true := by
      rcases hc with h | h <;> simp [h]
    rw [if_pos hb]
    exact ⟨_, _, _, rfl, LogSkip_TestResults .., rfl, rfl, rfl, by simp [hc], by simp,
      fun _ => ⟨rfl, by simp, by simp, by simp⟩, fun h => absurd hc h⟩
  · have hb : ¬ ((t.Name == "" || t.Email == "") = true) := by
      simpa [not_or] using hc
    rw [if_neg hb]
    obtain ⟨⟨t1, e, w1⟩, hr⟩ := Option.isSome_iff_exists.mp
      (UserTestCreate_isSome env testname t (now env s.2).2)
    have hl := UserTestCreate_TestResults env testname t _ t1 e w1 hr
    obtain ⟨cs, hcs⟩ := UserTestCreate_calls env testname t _ t1 e w1 hr
    rw [hr]
    cases e with
    | some err =>
      have hL := LogFail_TestResults env (env.failTestArg t1) "Create User" (now env s.2).1
        testname (id + 1) t1.String err w1
      rw [hl] at hL
      exact ⟨_, _, _, rfl, hL, rfl, rfl, rfl,
        by simpa [hc] using (verdict_ne_skip _ 1 0 (by omega) (by omega)).1,
        (verdict_ne_skip _ 1 0 (by omega) (by omega)).2,
        fun h => absurd h hc, fun _ => ⟨cs, by simpa using hcs⟩⟩
    | none =>
      have hL := LogPass_TestResults env (env.failTestArg t1) "Create User" (now env s.2).1
        testname (id + 1) t1.String w1
      rw [hl] at hL
      exact ⟨_, _, _, rfl, hL, rfl, rfl, rfl,
        by simpa [hc] using (verdict_ne_skip _ 0 1 (by omega) (by omega)).1,
        (verdict_ne_skip _ 0 1 (by omega) (by omega)).2,
        fun h => absurd h hc, fun _ => ⟨cs, by simpa using hcs⟩⟩

theorem UserTestsReadBody_spec (hsel : IsRead t.Test = true) :
    ∃ t1 s1 r, UserTestsReadBody env testname id t s = some (t1, s1)
      ∧ s1.2.TestResults = s.2.TestResults ++ [r]
      ∧ r.Id = id + 1 ∧ r.CRUD = "Read User" ∧ r.Name = testname
      ∧ (r.Result = 2 ↔ (t.Name = "" ∧ t.Email = ""))
      ∧ (r.Result = 0 ∨ r.Result = 1 ∨ r.Result = 2)
      ∧ ((t.Name = "" ∧ t.Email = "") →
          t1 = t ∧ s1.2.calls = s.2.calls ∧ s1.2.remote = s.2.remote
            ∧ s1.2.heap = s.2.heap)
      ∧ (¬(t.Name = "" ∧ t.Email = "") →
          s1.2.calls = s.2.calls ++ [Call.GetUserByUserName t.Name]) := by
  unfold UserTestsReadBody
  rw [if_pos hsel]
  by_cases hc : t.Name = "" ∧ t.Email = ""
  · have hb : (t.Name == "" && t.Email == "") = true := by simp [hc.1, hc.2]
    rw [if_pos hb]
    exact ⟨_, _, _, rfl, LogSkip_TestResults .., rfl, rfl, rfl, by simp [hc], by simp,
      fun _ => ⟨rfl, by simp, by simp, by simp⟩, fun h => absurd hc h⟩
  · have hb : ¬ ((t.Name == "" && t.Email == "") = true) := by
      simpa using hc
    rw [if_neg hb]
    obtain ⟨⟨t1, e, w1⟩, hr⟩ := Option.isSome_iff_exists.mp
      (UserTestRead_isSome env testname t (now env s.2).2)
    have hl := UserTestRead_TestResults env testname t _ t1 e w1 hr
    have hcs := UserTestRead_calls env testname t _ t1 e w1 hr
    rw [hr]
    cases e with
    | some err =>
      have hL := LogFail_TestResults env (env.failTestArg t1) "Read User" (now env s.2).1
        testname (id + 1) t1.String err w1
      rw [hl] at hL
      exact ⟨_, _, _, rfl, hL, rfl, rfl, rfl,
        by simpa [hc] using (verdict_ne_skip _ 1 0 (by omega) (by omega)).1,
        (verdict_ne_skip _ 1 0 (by omega) (by omega)).2,
        fun h => absurd h hc, fun _ => by simpa using hcs⟩
    | none =>
      have hL := LogPass_TestResults env (env.failTestArg t1) "Read User" (now env s.2).1
        testname (id + 1) t1.String w1
      rw [hl] at hL
      exact ⟨_, _, _, rfl, hL, rfl, rfl, rfl,
        by simpa [hc] using (verdict_ne_skip _ 0 1 (by omega) (by omega)).1,
        (verdict_ne_skip _ 0 1 (by omega) (by omega)).2,
        fun h => absurd h hc, fun _ => by simpa using hcs⟩

theorem UserTestUpdate_decl (w : World ρ) (t1 : UserCRUD) (e : Option String)
    (w1 : World ρ) (h : UserTestUpdate env testname t w = some (t1, e, w1)) : t1 = t := by
  unfold UserTestUpdate at h
  split at h
  · cases h
  · cases h; rfl
  · split at h <;> cases h
    rfl

theorem UserTestsUpdateBody_spec (hsel : IsUpdate t.Test = true) :
    ∃ t1 s1 r, UserTestsUpdateBody env testname id t s = some (t1, s1)
      ∧ s1.2.TestResults = s.2.TestResults ++ [r]
      ∧ r.Id = id + 1 ∧ r.CRUD = "Update User" ∧ r.Name = testname
      ∧ (r.Result = 2 ↔ t.User = none)
      ∧ (r.Result = 0 ∨ r.Result = 1 ∨ r.Result = 2)
      ∧ (t.User = none →
          t1 = t ∧ s1.2.calls = s.2.calls ∧ s1.2.remote = s.2.remote
            ∧ s1.2.heap = s.2.heap)
      ∧ t1 = t := by
  unfold UserTestsUpdateBody
  rw [if_pos hsel]
  by_cases hc : t.User = none
  · rw [if_pos hc]
    exact ⟨_, _, _, rfl, LogSkip_TestResults .., rfl, rfl, rfl, by simp [hc], by simp,
      fun _ => ⟨rfl, by simp, by simp, by simp⟩, rfl⟩
  · rw [if_neg hc]
    obtain ⟨⟨t1, e, w1⟩, hr⟩ := Option.isSome_iff_exists.mp
      (UserTestUpdate_isSome env testname t (now env s.2).2 hc)
    have hl := UserTestUpdate_TestResults env testname t _ t1 e w1 hr
    have ht := UserTestUpdate_decl env testname t _ t1 e w1 hr
    rw [hr]
    cases e with
    | some err =>
      have hL := LogFail_TestResults env (env.failTestArg t1) "Update User" (now env s.2).1
        testname (id + 1) t1.String err w1
      rw [hl] at hL
      exact ⟨_, _, _, rfl, hL, rfl, rfl, rfl,
        by simpa [hc] using (verdict_ne_skip _ 1 0 (by omega) (by omega)).1,
        (verdict_ne_skip _ 1 0 (by omega) (by omega)).2,
        fun h => absurd h hc, ht⟩
    | none =>
      have hL := LogPass_TestResults env (env.failTestArg t1) "Update User" (now env s.2).1
        testname (id + 1) t1.String w1
      rw [hl] at hL
      exact ⟨_, _, _, rfl, hL, rfl, rfl, rfl,
        by simpa [hc] using (verdict_ne_skip _ 0 1 (by omega) (by omega)).1,
        (verdict_ne_skip _ 0 1 (by omega) (by omega)).2,
        fun h => absurd h hc, ht⟩

theorem UserTestsDeleteBody_spec (hsel : IsDelete t.Test = true) :
    ∃ t1 s1 r, UserTestsDeleteBody env testname id t s = some (t1, s1)
      ∧ s1.2.TestResults = s.2.TestResults ++ [r]
      ∧ r.Id = id + 1 ∧ r.CRUD = "Delete User" ∧ r.Name = testname
      ∧ (r.Result = 2 ↔ t.User = none)
      ∧ (r.Result = 0 ∨ r.Result = 1 ∨ r.Result = 2)
      ∧ (t.User = none →
          t1 = t ∧ s1.2.calls = s.2.calls ∧ s1.2.remote = s.2.remote
            ∧ s1.2.heap = s.2.heap) := by
  unfold UserTestsDeleteBody
  rw [if_pos hsel]
  by_cases hc : t.User = none
  · rw [if_pos hc]
    exact ⟨_, _, _, rfl, LogSkip_TestResults .., rfl, rfl, rfl, by simp [hc], by simp,
      fun _ => ⟨rfl, by simp, by simp, by simp⟩⟩
  · rw [if_neg hc]
    obtain ⟨⟨t1, e, w1⟩, hr⟩ := Option.isSome_iff_exists.mp
      (UserTestDelete_isSome env testname t (now env s.2).2 hc)
    have hl := UserTestDelete_TestResults env testname t _ t1 e w1 hr
    rw [hr]
    cases e with
    | some err =>
      have hL := LogFail_TestResults env (env.failTestArg t1) "Delete User" (now env s.2).1
        testname (id + 1) t1.String err w1
      rw [hl] at hL
      exact ⟨_, _, _, rfl, hL, rfl, rfl, rfl,
        by simpa [hc] using (verdict_ne_skip _ 1 0 (by omega) (by omega)).1,
        (verdict_ne_skip _ 1 0 (by omega) (by omega)).2,
        fun h => absurd h hc⟩
    | none =>
      have hL := LogPass_TestResults env (env.failTestArg t1) "Delete User" (now env s.2).1
        testname (id + 1) t1.String w1
      rw [hl] at hL
      exact ⟨_, _, _, rfl, hL, rfl, rfl, rfl,
        by simpa [hc] using (verdict_ne_skip _ 0 1 (by omega) (by omega)).1,
        (verdict_ne_skip _ 0 1 (by omega) (by omega)).2,
        fun h => absurd h hc⟩

theorem UserTestsBody_isSome (p : Phase) :
    (UserTestsBody p env testname id t s).isSome = true := by
  cases p
  · exact UserTestsCreateBody_isSome env testname id t s
  · exact UserTestsReadBody_isSome env testname id t s
  · exact UserTestsUpdateBody_isSome env testname id t s
  · exact UserTestsDeleteBody_isSome env testname id t s

theorem UserTestsBody_unselected (p : Phase) (hsel : selects p t.Test = false) :
    UserTestsBody p env testname id t s = some (t, s) := by
  cases p <;>
    simp only [selects] at hsel <;>
    simp [UserTestsBody, UserTestsCreateBody, UserTestsReadBody, UserTestsUpdateBody,
      UserTestsDeleteBody, hsel]

/-- What one iteration of the loop of phase `p` does to the ledger when the declaration
is selected: one record with the position, the label of the phase, the name of the set
and a verdict. -/
theorem UserTestsBody_selected (p : Phase) (hsel : selects p t.Test = true) :
    ∃ t1 s1 r, UserTestsBody p env testname id t s = some (t1, s1)
      ∧ s1.2.TestResults = s.2.TestResults ++ [r]
      ∧ r.Id = id + 1 ∧ r.CRUD = userLabel p ∧ r.Name = testname
      ∧ (r.Result = 0 ∨ r.Result = 1 ∨ r.Result = 2) := by
  cases p
  · obtain ⟨t1, s1, r, h1, h2, h3, h4, h5, -, h7, -⟩ :=
      UserTestsCreateBody_spec env testname id t s hsel
    exact ⟨t1, s1, r, h1, h2, h3, h4, h5, h7⟩
  · obtain ⟨t1, s1, r, h1, h2, h3, h4, h5, -, h7, -⟩ :=
      UserTestsReadBody_spec env testname id t s hsel
    exact ⟨t1, s1, r, h1, h2, h3, h4, h5, h7⟩
  · obtain ⟨t1, s1, r, h1, h2, h3, h4, h5, -, h7, -⟩ :=
      UserTestsUpdateBody_spec env testname id t s hsel
    exact ⟨t1, s1, r, h1, h2, h3, h4, h5, h7⟩
  · obtain ⟨t1, s1, r, h1, h2, h3, h4, h5, -, h7, -⟩ :=
      UserTestsDeleteBody_spec env testname id t s hsel
    exact ⟨t1, s1, r, h1, h2, h3, h4, h5, h7⟩

theorem UserTests_eq (p : Phase) (users : List UserCRUD) (w : World ρ) :
    UserTests p env testname users w
      = forRange (UserTestsBody p env testname) 0 users (true, w) := by
  cases p <;> rfl

end Bodies


theorem forRange_UserTestsBody_ledger (p : Phase) (env : Env ρ) (testname : String)
    (users : List UserCRUD) :
    ∀ (i : Nat) (s : Bool × World ρ),
      ∃ users1 s1 recs, forRange (UserTestsBody p env testname) i users s = some (users1, s1)
        ∧ users1.length = users.length
        ∧ s1.2.TestResults = s.2.TestResults ++ recs
        ∧ recs.map (fun r => r.Id)
            = ((users.enumFrom i).filter fun q => selects p q.2.Test).map (fun q => q.1 + 1)
        ∧ ∀ r ∈ recs, r.CRUD = userLabel p ∧ r.Name = testname
            ∧ (r.Result = 0 ∨ r.Result = 1 ∨ r.Result = 2) := by
  induction users with
  | nil => intro i s; exact ⟨[], s, [], rfl, rfl, by simp, by simp, by simp⟩
  | cons t rest ih =>
    intro i s
    by_cases hsel : selects p t.Test = true
    · obtain ⟨t1, s1, r, h1, h2, h3, h4, h5, h6⟩ :=
        UserTestsBody_selected env testname i t s p hsel
      obtain ⟨rest1, s2, recs, g1, g2, g3, g4, g5⟩ := ih (i + 1) s1
      refine ⟨t1 :: rest1, s2, r :: recs, ?_, by simp [g2], ?_, ?_, ?_⟩
      · simp [forRange, h1, g1]
      · rw [g3, h2]; simp
      · simp [List.enumFrom_cons, hsel, g4, h3]
      · intro x hx
        rcases List.mem_cons.mp hx with rfl | hx
        · exact ⟨h4, h5, h6⟩
        · exact g5 x hx
    · have hsel : selects p t.Test = false := by simpa using hsel
      have h1 := UserTestsBody_unselected env testname i t s p hsel
      obtain ⟨rest1, s2, recs, g1, g2, g3, g4, g5⟩ := ih (i + 1) s
      refine ⟨t :: rest1, s2, recs, ?_, by simp [g2], g3, ?_, g5⟩
      · simp [forRange, h1, g1]
      · simp [List.enumFrom_cons, hsel, g4]

/-- C10 (ledger accounting).  For every phase `p`, every list of user declarations and
every client, the entry point of the user module for `p` (`UserTestsCreate`,
`UserTestsRead`, `UserTestsUpdate`, `UserTestsDelete`) returns, keeps the number of
declarations, and leaves the ledger equal to the old ledger followed by one record per
declaration whose phase string selects `p`, in document order: the indices of the new
records are the 1-based positions of the selected declarations, and each new record
carries the label of the phase, the name of the set and a verdict. -/
theorem ledger_accounting (p : Phase) (env : Env ρ) (testname : String)
    (users : List UserCRUD) (w : World ρ) :
    ∃ users1 b w1 recs, UserTests p env testname users w = some (users1, b, w1)
      ∧ users1.length = users.length
      ∧ w1.TestResults = w.TestResults ++ recs
      ∧ recs.map (fun r => r.Id)
          = (users.enum.filter fun q => selects p q.2.Test).map (fun q => q.1 + 1)
      ∧ ∀ r ∈ recs, r.CRUD = userLabel p ∧ r.Name = testname
          ∧ (r.Result = 0 ∨ r.Result = 1 ∨ r.Result = 2) := by
  obtain ⟨users1, ⟨b, w1⟩, recs, h1, h2, h3, h4, h5⟩ :=
    forRange_UserTestsBody_ledger p env testname users 0 (true, w)
  exact ⟨users1, b, w1, recs, by rw [UserTests_eq]; exact h1, h2, h3, h4, h5⟩

/-- C3 (skip on a nil handle).  Let `t` be any declaration of the list
`pre ++ t :: post` whose phase string selects Update (resp. Delete).  The run of
`UserTestsUpdate` (resp. `UserTestsDelete`) returns, and its iteration for `t` appends
one record, which is a skip (2) exactly when the handle of `t` is nil, whatever
`FailTest` is; if the handle is nil the iteration makes no client call and changes
neither the declaration, the remote state nor the client objects; if it is not nil the
verdict is fail (0) or pass (1). -/
theorem update_delete_skip_iff_nil (p : Phase) (env : Env ρ) (testname : String)
    (pre : List UserCRUD) (t : UserCRUD) (post : List UserCRUD) (w : World ρ)
    (hp : p = .Update ∨ p = .Delete) (hsel : selects p t.Test = true) :
    ∃ s1 t1 s2 r,
      Iteration (UserTestsBody p env testname)
        (UserTests p env testname (pre ++ t :: post) w) pre t post (true, w) s1 t1 s2
      ∧ s2.2.TestResults = s1.2.TestResults ++ [r]
      ∧ (r.Result = 2 ↔ t.User = none)
      ∧ (t.User = none →
          t1 = t ∧ s2.2.calls = s1.2.calls ∧ s2.2.remote = s1.2.remote
            ∧ s2.2.heap = s1.2.heap)
      ∧ (t.User ≠ none → r.Result = 0 ∨ r.Result = 1) := by
  obtain ⟨s1, t1, s2, hit⟩ := forRange_iteration (UserTestsBody p env testname)
    (fun id x s => UserTestsBody_isSome env testname id x s p) pre t post (true, w)
  rw [← UserTests_eq] at hit
  obtain ⟨pre1, post1, s3, k1, k2, k3, k4⟩ := hit
  have key : ∃ r, s2.2.TestResults = s1.2.TestResults ++ [r]
      ∧ (r.Result = 2 ↔ t.User = none)
      ∧ (r.Result = 0 ∨ r.Result = 1 ∨ r.Result = 2)
      ∧ (t.User = none →
          t1 = t ∧ s2.2.calls = s1.2.calls ∧ s2.2.remote = s1.2.remote
            ∧ s2.2.heap = s1.2.heap) := by
    rcases hp with rfl | rfl
    · obtain ⟨t1', s2', r, h1, h2, -, -, -, h6, h7, h8, -⟩ :=
        UserTestsUpdateBody_spec env testname pre.length t s1 hsel
      rw [show UserTestsBody .Update env testname = UserTestsUpdateBody env testname from rfl,
        h1] at k2
      cases k2
      exact ⟨r, h2, h6, h7, h8⟩
    · obtain ⟨t1', s2', r, h1, h2, -, -, -, h6, h7, h8⟩ :=
        UserTestsDeleteBody_spec env testname pre.length t s1 hsel
      rw [show UserTestsBody .Delete env testname = UserTestsDeleteBody env testname from rfl,
        h1] at k2
      cases k2
      exact ⟨r, h2, h6, h7, h8⟩
  obtain ⟨r, h2, h6, h7, h8⟩ := key
  refine ⟨s1, t1, s2, r, ⟨pre1, post1, s3, k1, k2, k3, k4⟩, h2, h6, h8, ?_⟩
  intro hn
  rcases h7 with h | h | h
  · exact Or.inl h
  · exact Or.inr h
  · exact absurd (h6.mp h) hn

/-- The declaration of the example with a nil handle is selected for Update: the
iteration for it in a run of `UserTestsUpdate` records a skip. -/
theorem update_delete_skip_iff_nil_witness :
    selects .Update demoUser.Test = true
    ∧ ∃ s1 t1 s2 r,
      Iteration (UserTestsBody .Update storeEnv "set")
        (UserTests .Update storeEnv "set" ([] ++ demoUser :: []) demoWorld)
        [] demoUser [] (true, demoWorld) s1 t1 s2
      ∧ s2.2.TestResults = s1.2.TestResults ++ [r]
      ∧ (r.Result = 2 ↔ demoUser.User = none)
      ∧ (demoUser.User = none →
          t1 = demoUser ∧ s2.2.calls = s1.2.calls ∧ s2.2.remote = s1.2.remote
            ∧ s2.2.heap = s1.2.heap)
      ∧ (demoUser.User ≠ none → r.Result = 0 ∨ r.Result = 1) :=
  ⟨by decide, update_delete_skip_iff_nil .Update storeEnv "set" [] demoUser [] demoWorld
    (Or.inl rfl) (by decide)⟩

/-- C4, as the claim states it, fails for Read: the declaration `Name: u1, Email: ""`,
selected for Read, has an empty email, yet `UserTestsRead` does not record a skip: it
looks the user up by name (the lookup fails, the user does not exist) and records a
fail (0). -/
theorem read_skip_counterexample :
    (demoUserNoEmail.Name = "" ∨ demoUserNoEmail.Email = "")
    ∧ selects .Read demoUserNoEmail.Test = true
    ∧ ∃ users1 b w1 r,
        UserTestsRead storeEnv "set" [demoUserNoEmail] demoWorld = some (users1, b, w1)
        ∧ w1.TestResults = [r] ∧ r.Result = 0 ∧ r.Result ≠ 2
        ∧ w1.calls = [Call.GetUserByUserName "u1"] :=
  ⟨by decide, by decide, _, _, _, _, rfl, rfl, by decide, by decide, by decide⟩

/-- C4, amended.  Let `t` be any declaration of the list `pre ++ t :: post` whose phase
string selects Create (resp. Read).  The run of `UserTestsCreate` (resp.
`UserTestsRead`) returns and its iteration for `t` appends one record.  For Create the
record is a skip (2) exactly when the name or the email is empty; a skip makes no client
call and leaves the declaration alone, and otherwise `CreateUser` is called with the
name and email and the verdict is fail (0) or pass (1).  For Read, if the name and the
email are both empty the record is a skip, with no client call; if the name is not
empty, `GetUserByUserName` is called with the name, it is the only call, and the verdict
is fail or pass. -/
theorem create_read_skip (p : Phase) (env : Env ρ) (testname : String)
    (pre : List UserCRUD) (t : UserCRUD) (post : List UserCRUD) (w : World ρ)
    (hp : p = .Create ∨ p = .Read) (hsel : selects p t.Test = true) :
    ∃ s1 t1 s2 r,
      Iteration (UserTestsBody p env testname)
        (UserTests p env testname (pre ++ t :: post) w) pre t post (true, w) s1 t1 s2
      ∧ s2.2.TestResults = s1.2.TestResults ++ [r]
      ∧ (p = .Create →
          (r.Result = 2 ↔ (t.Name = "" ∨ t.Email = ""))
          ∧ (r.Result = 2 →
              t1 = t ∧ s2.2.calls = s1.2.calls ∧ s2.2.remote = s1.2.remote
                ∧ s2.2.heap = s1.2.heap)
          ∧ (r.Result ≠ 2 →
              (r.Result = 0 ∨ r.Result = 1)
              ∧ ∃ cs, s2.2.calls
                  = s1.2.calls
                    ++ Call.CreateUser { UserName := t.Name, Email := t.Email } :: cs))
      ∧ (p = .Read →
          ((t.Name = "" ∧ t.Email = "") →
              r.Result = 2 ∧ t1 = t ∧ s2.2.calls = s1.2.calls
                ∧ s2.2.remote = s1.2.remote ∧ s2.2.heap = s1.2.heap)
          ∧ (t.Name ≠ "" →
              (r.Result = 0 ∨ r.Result = 1)
              ∧ s2.2.calls = s1.2.calls ++ [Call.GetUserByUserName t.Name])) := by
  obtain ⟨s1, t1, s2, hit⟩ := forRange_iteration (UserTestsBody p env testname)
    (fun id x s => UserTestsBody_isSome env testname id x s p) pre t post (true, w)
  rw [← UserTests_eq] at hit
  obtain ⟨pre1, post1, s3, k1, k2, k3, k4⟩ := hit
  rcases hp with rfl | rfl
  · obtain ⟨t1', s2', r, h1, h2, -, -, -, h6, h7, h8, h9⟩ :=
      UserTestsCreateBody_spec env testname pre.length t s1 hsel
    rw [show UserTestsBody .Create env testname = UserTestsCreateBody env testname from rfl,
      h1] at k2
    cases k2
    refine ⟨s1, t1, s2, r, ⟨pre1, post1, s3, k1, ?_, k3, k4⟩, h2, ?_, ?_⟩
    · exact h1
    · intro _
      refine ⟨h6, fun hr => h8 (h6.mp hr), fun hr => ⟨?_, h9 (fun hc => hr (h6.mpr hc))⟩⟩
      rcases h7 with h | h | h
      · exact Or.inl h
      · exact Or.inr h
      · exact absurd h hr
    · intro hh; cases hh
  · obtain ⟨t1', s2', r, h1, h2, -, -, -, h6, h7, h8, h9⟩ :=
      UserTestsReadBody_spec env testname pre.length t s1 hsel
    rw [show UserTestsBody .Read env testname = UserTestsReadBody env testname from rfl,
      h1] at k2
    cases k2
    refine ⟨s1, t1, s2, r, ⟨pre1, post1, s3, k1, ?_, k3, k4⟩, h2, ?_, ?_⟩
    · exact h1
    · intro hh; cases hh
    · intro _
      refine ⟨fun hc => ⟨h6.mpr hc, h8 hc⟩, fun hn => ⟨?_, h9 (fun hc => hn hc.1)⟩⟩
      rcases h7 with h | h | h
      · exact Or.inl h
      · exact Or.inr h
      · exact absurd (h6.mp h).1 hn

/-- The declaration of the example is selected for Create, and the declaration with an
empty email for Read: in each case the iteration for it in a run of the entry point
appends one record. -/
theorem create_read_skip_witness :
    (selects .Create demoUser.Test = true
    ∧ ∃ s1 t1 s2 r,
      Iteration (UserTestsBody .Create storeEnv "set")
        (UserTests .Create storeEnv "set" ([] ++ demoUser :: []) demoWorld)
        [] demoUser [] (true, demoWorld) s1 t1 s2
      ∧ s2.2.TestResults = s1.2.TestResults ++ [r]
      ∧ (Phase.Create = .Create →
          (r.Result = 2 ↔ (demoUser.Name = "" ∨ demoUser.Email = ""))
          ∧ (r.Result = 2 →
              t1 = demoUser ∧ s2.2.calls = s1.2.calls ∧ s2.2.remote = s1.2.remote
                ∧ s2.2.heap = s1.2.heap)
          ∧ (r.Result ≠ 2 →
              (r.Result = 0 ∨ r.Result = 1)
              ∧ ∃ cs, s2.2.calls
                  = s1.2.calls
                    ++ Call.CreateUser
                      { UserName := demoUser.Name, Email := demoUser.Email } :: cs))
      ∧ (Phase.Create = .Read →
          ((demoUser.Name = "" ∧ demoUser.Email = "") →
              r.Result = 2 ∧ t1 = demoUser ∧ s2.2.calls = s1.2.calls
                ∧ s2.2.remote = s1.2.remote ∧ s2.2.heap = s1.2.heap)
          ∧ (demoUser.Name ≠ "" →
              (r.Result = 0 ∨ r.Result = 1)
              ∧ s2.2.calls = s1.2.calls ++ [Call.GetUserByUserName demoUser.Name])))
    ∧ (selects .Read demoUserNoEmail.Test = true
    ∧ ∃ s1 t1 s2 r,
      Iteration (UserTestsBody .Read storeEnv "set")
        (UserTests .Read storeEnv "set" ([] ++ demoUserNoEmail :: []) demoWorld)
        [] demoUserNoEmail [] (true, demoWorld) s1 t1 s2
      ∧ s2.2.TestResults = s1.2.TestResults ++ [r]
      ∧ (Phase.Read = .Create →
          (r.Result = 2 ↔ (demoUserNoEmail.Name = "" ∨ demoUserNoEmail.Email = ""))
          ∧ (r.Result = 2 →
              t1 = demoUserNoEmail ∧ s2.2.calls = s1.2.calls ∧ s2.2.remote = s1.2.remote
                ∧ s2.2.heap = s1.2.heap)
          ∧ (r.Result ≠ 2 →
              (r.Result = 0 ∨ r.Result = 1)
              ∧ ∃ cs, s2.2.calls
                  = s1.2.calls
                    ++ Call.CreateUser
                      { UserName := demoUserNoEmail.Name,
                        Email := demoUserNoEmail.Email } :: cs))
      ∧ (Phase.Read = .Read →
          ((demoUserNoEmail.Name = "" ∧ demoUserNoEmail.Email = "") →
              r.Result = 2 ∧ t1 = demoUserNoEmail ∧ s2.2.calls = s1.2.calls
                ∧ s2.2.remote = s1.2.remote ∧ s2.2.heap = s1.2.heap)
          ∧ (demoUserNoEmail.Name ≠ "" →
              (r.Result = 0 ∨ r.Result = 1)
              ∧ s2.2.calls
                  = s1.2.calls ++ [Call.GetUserByUserName demoUserNoEmail.Name]))) :=
  ⟨⟨by decide, create_read_skip .Create storeEnv "set" [] demoUser [] demoWorld
    (Or.inl rfl) (by decide)⟩,
   ⟨by decide, create_read_skip .Read storeEnv "set" [] demoUserNoEmail [] demoWorld
    (Or.inr rfl) (by decide)⟩⟩

/-- C8 (delete clears the handle).  For a declaration `t` whose handle is the address
`a`, `UserTestDelete` calls `DeleteUser` on the handle and nothing else.  If the call
succeeds it returns nil and the declaration is `t` with a nil handle; if the call
returns an error it returns that error and the declaration is `t`, unchanged.  After a
successful delete, every later iteration of the Update or Delete loop for the
declaration, if selected, records a skip (2). -/
theorem delete_clears_handle (env : Env ρ) (testname : String) (t : UserCRUD)
    (w : World ρ) (a : Nat) (h : t.User = some a) :
    ∃ t1 e w1, UserTestDelete env testname t w = some (t1, e, w1)
      ∧ w1.calls = w.calls ++ [Call.DeleteUser a]
      ∧ e = (env.client.DeleteUser w.remote (w.heap a)).err
      ∧ (e = none → t1 = { t with User := none })
      ∧ (e ≠ none → t1 = t)
      ∧ (e = none → ∀ (p : Phase) (id : Nat) (s : Bool × World ρ),
          (p = .Update ∨ p = .Delete) → selects p t1.Test = true →
          ∃ s1 r, UserTestsBody p env testname id t1 s = some (t1, s1)
            ∧ s1.2.TestResults = s.2.TestResults ++ [r] ∧ r.Result = 2) := by
  have later : ∀ (p : Phase) (id : Nat) (s : Bool × World ρ),
      (p = .Update ∨ p = .Delete) → selects p ({ t with User := none } : UserCRUD).Test = true →
      ∃ s1 r, UserTestsBody p env testname id { t with User := none } s
          = some ({ t with User := none }, s1)
        ∧ s1.2.TestResults = s.2.TestResults ++ [r] ∧ r.Result = 2 := by
    intro p id s hp hsel
    rcases hp with rfl | rfl
    · obtain ⟨t2, s2, r, h1, h2, -, -, -, h6, -, h8, -⟩ :=
        UserTestsUpdateBody_spec env testname id { t with User := none } s hsel
      obtain ⟨rfl, -⟩ := h8 rfl
      exact ⟨s2, r, h1, h2, h6.mpr rfl⟩
    · obtain ⟨t2, s2, r, h1, h2, -, -, -, h6, -, h8⟩ :=
        UserTestsDeleteBody_spec env testname id { t with User := none } s hsel
      obtain ⟨rfl, -⟩ := h8 rfl
      exact ⟨s2, r, h1, h2, h6.mpr rfl⟩
  unfold UserTestDelete
  rw [h]
  dsimp only
  cases hd : (callUser (Call.DeleteUser a) env.client.DeleteUser a w).1 with
  | some err =>
    refine ⟨t, some err, _, rfl, rfl, hd.symm, ?_, fun _ => rfl, ?_⟩
    · intro hh; cases hh
    · intro hh; cases hh
  | none =>
    refine ⟨{ t with User := none }, none, _, rfl, rfl, hd.symm, fun _ => rfl,
      fun hh => absurd rfl hh, fun _ => later⟩

/-- The declaration of the example with a handle attached meets the hypothesis of C8,
in a state where the handle points to the existing user `old`, so that the delete call
succeeds. -/
theorem delete_clears_handle_witness :
    demoUserLive.User = some 0
    ∧ (storeEnv.client.DeleteUser demoLiveWorld.remote (demoLiveWorld.heap 0)).err = none
    ∧ ∃ t1 e w1, UserTestDelete storeEnv "set" demoUserLive demoLiveWorld = some (t1, e, w1)
      ∧ w1.calls = demoLiveWorld.calls ++ [Call.DeleteUser 0]
      ∧ e = (storeEnv.client.DeleteUser demoLiveWorld.remote (demoLiveWorld.heap 0)).err
      ∧ (e = none → t1 = { demoUserLive with User := none })
      ∧ (e ≠ none → t1 = demoUserLive)
      ∧ (e = none → ∀ (p : Phase) (id : Nat) (s : Bool × World Store),
          (p = .Update ∨ p = .Delete) → selects p t1.Test = true →
          ∃ s1 r, UserTestsBody p storeEnv "set" id t1 s = some (t1, s1)
            ∧ s1.2.TestResults = s.2.TestResults ++ [r] ∧ r.Result = 2) :=
  ⟨rfl, rfl, delete_clears_handle storeEnv "set" demoUserLive demoLiveWorld 0 rfl⟩

/-! ## The exit status -/

theorem summary_ne_nil (results : List TestResult) : summary results ≠ [] := by
  simp [summary]

/-- C9, as the claim states it, fails: the run of the example completes with a ledger
that holds a fail record (verdict 0), and the process ends with status 0. -/
theorem exit_status_counterexample :
    ∃ e, main storeEnv idleModules demoHost 2 ["cx1e2e", "root.yaml", "key"] = some e
      ∧ (∃ r ∈ e.TestResults, r.Result = 0)
      ∧ e.stdout = summary e.TestResults
      ∧ e.status = 0 :=
  ⟨_, rfl, by decide, by decide, by decide⟩

/-- C9, amended.  Whenever the process ends normally its exit status is 0 or 1.  A run
that completes, that is, one that reaches the summary, ends with status 0 whatever the
ledger holds; status 1 is only the end of a run stopped by `logger.Fatalf` before any
test, with an empty ledger and nothing printed. -/
theorem exit_status (env : Env ρ) (m : Modules ρ) (host : Host ρ) (fuel : Nat)
    (args : List String) (e : Exit) (h : main env m host fuel args = some e) :
    (e.status = 0 ∨ e.status = 1)
    ∧ (e.stdout = summary e.TestResults → e.status = 0)
    ∧ (e.status = 1 → e.TestResults = [] ∧ e.stdout = []) := by
  simp only [main] at h
  have hs := summary_ne_nil ([] : List TestResult)
  repeat' split at h
  all_goals cases h
  all_goals simp [Ne.symm hs]

/-- The run of the example ends normally, as C9 amended supposes. -/
theorem exit_status_witness :
    ∃ e, main storeEnv idleModules demoHost 2 ["cx1e2e", "root.yaml", "key"] = some e
      ∧ (e.status = 0 ∨ e.status = 1)
      ∧ (e.stdout = summary e.TestResults → e.status = 0)
      ∧ (e.status = 1 → e.TestResults = [] ∧ e.stdout = []) :=
  ⟨_, rfl, exit_status storeEnv idleModules demoHost 2 ["cx1e2e", "root.yaml", "key"] _ rfl⟩

/-! ## The configuration loader -/

theorem resolveScans_length (fs : FileSystem) (root : String) (scans : List ScanCRUD) :
    ∀ out, resolveScans fs root scans = .ok out → out.length = scans.length := by
  induction scans with
  | nil => intro out h; simp only [resolveScans] at h; cases h; rfl
  | cons sc rest ih =>
    intro out h
    simp only [resolveScans] at h
    repeat' split at h
    all_goals cases h
    all_goals simp [ih _ (by assumption)]

theorem loadSets_of_specSplice (fs : FileSystem)
    (load : String → Option (Except String TestConfig))
    (sub : String → Option (List TestSet)) (root : String)
    (hsub : ∀ p s, sub p = some s → ∃ conf, load p = some (.ok conf) ∧ conf.Tests = s)
    (tests : List TestSet) :
    ∀ (acc out : List TestSet), specSplice (specExpandSet fs sub root) tests = some out →
      loadSets fs load root tests acc = some (.ok (acc ++ out)) := by
  induction tests with
  | nil =>
    intro acc out h
    simp only [specSplice] at h
    cases h
    simp [loadSets]
  | cons set rest ih =>
    intro acc out h
    simp only [specSplice] at h
    split at h
    · rename_i sets rest1 h1 h2
      cases h
      simp only [specExpandSet] at h1
      simp only [loadSets]
      split at h1
      · rename_i hf
        rw [if_pos hf]
        split at h1
        · cases h1
        · rename_i p hp
          obtain ⟨conf, hl, hc⟩ := hsub p sets h1
          simp only [hl]
          rw [ih _ _ h2, hc, List.append_assoc]
      · rename_i hf
        rw [if_neg hf]
        split at h1
        · cases h1
        · rename_i scans hs
          cases h1
          rw [ih _ _ h2]
          simp
    · cases h

theorem LoadConfig_of_specFlatten (fs : FileSystem) (depth : Nat) :
    ∀ (fuel : Nat) (path : String) (sets : List TestSet),
      specFlatten fs depth path = some sets → depth ≤ fuel →
      ∃ doc, fs.Decode path { TestConfig.zero with ConfigPath := fs.Abs path } = .ok doc
        ∧ LoadConfig fs fuel path = some (.ok { doc with Tests := sets }) := by
  induction depth with
  | zero => intro fuel path sets h; simp [specFlatten] at h
  | succ d ih =>
    intro fuel path sets h hf
    obtain ⟨fuel1, rfl⟩ : ∃ k, fuel = k + 1 := ⟨fuel - 1, by omega⟩
    simp only [specFlatten] at h
    simp only [LoadConfig]
    split at h
    · cases h
    · split at h
      · cases h
      · rename_i conf hd
        have hsub : ∀ p s, specFlatten fs d p = some s →
            ∃ c, LoadConfig fs fuel1 p = some (.ok c) ∧ c.Tests = s := by
          intro p s hp
          obtain ⟨c, -, h1⟩ := ih fuel1 p s hp (by omega)
          exact ⟨_, h1, rfl⟩
        refine ⟨conf, hd, ?_⟩
        rw [loadSets_of_specSplice fs _ _ _ hsub conf.Tests [] sets h]
        simp

theorem specSplice_noFile (fs : FileSystem) (sub : String → Option (List TestSet))
    (root : String) (hsub : ∀ p s, sub p = some s → ∀ x ∈ s, x.File = "")
    (tests : List TestSet) :
    ∀ out, specSplice (specExpandSet fs sub root) tests = some out →
      ∀ x ∈ out, x.File = "" := by
  induction tests with
  | nil => intro out h; simp only [specSplice] at h; cases h; simp
  | cons set rest ih =>
    intro out h
    simp only [specSplice] at h
    split at h
    · rename_i sets rest1 h1 h2
      cases h
      intro x hx
      rcases List.mem_append.mp hx with hx | hx
      · simp only [specExpandSet] at h1
        split at h1
        · split at h1
          · cases h1
          · exact hsub _ _ h1 x hx
        · rename_i hf
          split at h1
          · cases h1
          · cases h1
            simp only [List.mem_singleton] at hx
            subst hx
            simpa using hf
      · exact ih _ h2 x hx
    · cases h

theorem specFlatten_noFile (fs : FileSystem) (depth : Nat) :
    ∀ (path : String) (sets : List TestSet), specFlatten fs depth path = some sets →
      ∀ x ∈ sets, x.File = "" := by
  induction depth with
  | zero => intro path sets h; simp [specFlatten] at h
  | succ d ih =>
    intro path sets h
    simp only [specFlatten] at h
    split at h
    · cases h
    · split at h
      · cases h
      · exact specSplice_noFile fs _ _ (fun p s hp => ih p s hp) _ _ h

theorem specSplice_append (f : TestSet → Option (List TestSet)) (xs ys : List TestSet) :
    specSplice f (xs ++ ys)
      = match specSplice f xs, specSplice f ys with
        | some a, some b => some (a ++ b)
        | _, _ => none := by
  induction xs with
  | nil => simp only [List.nil_append, specSplice]; cases specSplice f ys <;> simp
  | cons x rest ih =>
    have e1 : specSplice f (x :: (rest ++ ys))
        = match f x, specSplice f (rest ++ ys) with
          | some sets, some rest1 => some (sets ++ rest1)
          | _, _ => none := rfl
    have e2 : specSplice f (x :: rest)
        = match f x, specSplice f rest with
          | some sets, some rest1 => some (sets ++ rest1)
          | _, _ => none := rfl
    rw [List.cons_append, e1, e2, ih]
    cases f x <;> cases specSplice f rest <;> cases specSplice f ys <;> simp

theorem specSplice_leaves_length (fs : FileSystem) (sub : String → Option (List TestSet))
    (root : String) (tests : List TestSet) (hleaf : ∀ x ∈ tests, x.File = "") :
    ∀ out, specSplice (specExpandSet fs sub root) tests = some out →
      out.length = tests.length := by
  induction tests with
  | nil => intro out h; simp only [specSplice] at h; cases h; rfl
  | cons set rest ih =>
    intro out h
    have hf : set.File = "" := hleaf set (List.mem_cons_self _ _)
    simp only [specSplice] at h
    split at h
    · rename_i sets rest1 h1 h2
      cases h
      simp only [specExpandSet, hf, bne_self_eq_false, Bool.false_eq_true, if_false] at h1
      split at h1
      · cases h1
      · cases h1
        have := ih (fun x hx => hleaf x (List.mem_cons_of_mem _ hx)) _ h2
        simp [this]
    · cases h

/-- C7 (delegation flattening).  Suppose every file that the document at `path` refers
to, directly or through other documents, resolves and loads within `depth` nested
documents, so that the specification assigns the document the flattened sequence
`sets`: each set with a file reference replaced, left to right, by the flattened
sequence of the referenced document, every other set kept as one element (with the
archive paths of its scans resolved).  Then
`LoadConfig`, allowed at least `depth` nested calls, returns the decoded document with
`sets` as its test sets.  No set of the result carries a file reference.  In particular,
when the document has the sets `pre ++ d :: post`, of which only `d` carries a file
reference, and the document `d` refers to has only sets without a file reference, the
result has (number of sets of the document - 1) + (number of sets of the referenced
document) sets, and `d` is not among them. -/
theorem LoadConfig_flattens (fs : FileSystem) (depth fuel : Nat) (path : String)
    (sets : List TestSet) (h : specFlatten fs depth path = some sets)
    (hfuel : depth ≤ fuel) :
    ∃ doc conf,
      fs.Decode path { TestConfig.zero with ConfigPath := fs.Abs path } = .ok doc
      ∧ LoadConfig fs fuel path = some (.ok conf)
      ∧ conf = { doc with Tests := sets }
      ∧ (∀ x ∈ conf.Tests, x.File = "")
      ∧ (∀ (pre post : List TestSet) (d : TestSet) (p : String) (doc2 : TestConfig),
          doc.Tests = pre ++ d :: post →
          (∀ x ∈ pre ++ post, x.File = "") → d.File ≠ "" →
          getFilePath fs (fs.Dir path) d.File = .ok p →
          fs.Decode p { TestConfig.zero with ConfigPath := fs.Abs p } = .ok doc2 →
          (∀ x ∈ doc2.Tests, x.File = "") →
          conf.Tests.length = (doc.Tests.length - 1) + doc2.Tests.length
            ∧ d ∉ conf.Tests) := by
  obtain ⟨doc, hd, hl⟩ := LoadConfig_of_specFlatten fs depth fuel path sets h hfuel
  have hno := specFlatten_noFile fs depth path sets h
  refine ⟨doc, _, hd, hl, rfl, hno, ?_⟩
  intro pre post d p doc2 hdoc hleaf hdf hp hd2 hleaf2
  refine ⟨?_, fun hmem => hdf (hno d hmem)⟩
  obtain ⟨depth1, rfl⟩ : ∃ k, depth = k + 1 := by
    cases depth with
    | zero => simp [specFlatten] at h
    | succ k => exact ⟨k, rfl⟩
  simp only [specFlatten] at h
  split at h
  · cases h
  · split at h
    · cases h
    · rename_i doc' hd'
      rw [hd] at hd'
      cases hd'
      rw [hdoc, specSplice_append] at h
      split at h
      · rename_i a b ha hb
        cases h
        simp only [specSplice] at hb
        split at hb
        · rename_i sub rest1 hsub hrest
          cases hb
          have la := specSplice_leaves_length fs _ _ pre
            (fun x hx => hleaf x (List.mem_append_left _ hx)) _ ha
          have lb := specSplice_leaves_length fs _ _ post
            (fun x hx => hleaf x (List.mem_append_right _ hx)) _ hrest
          have hdf' : (d.File != "") = true := by simpa using hdf
          simp only [specExpandSet, hdf', if_true, hp] at hsub
          obtain ⟨depth2, rfl⟩ : ∃ k, depth1 = k + 1 := by
            cases depth1 with
            | zero => simp [specFlatten] at hsub
            | succ k => exact ⟨k, rfl⟩
          simp only [specFlatten] at hsub
          split at hsub
          · cases hsub
          · split at hsub
            · cases hsub
            · rename_i doc2' hd2'
              rw [hd2] at hd2'
              cases hd2'
              have ls := specSplice_leaves_length fs _ _ doc2.Tests hleaf2 _ hsub
              simp only [hdoc, List.length_append, List.length_cons, la, lb, ls]
              omega
        · cases hb
      · cases h

/-- The root document of the example, whose second set delegates to a document of two
sets, flattens within two nested documents. -/
theorem LoadConfig_flattens_witness :
    specFlatten demoFs 2 "root.yaml"
      = some [{ emptySet "a" "" with Users := [demoUserNoEmail] }, emptySet "s1" "",
          emptySet "s2" "", emptySet "b" ""]
    ∧ 2 ≤ 2
    ∧ ∃ doc conf,
      demoFs.Decode "root.yaml" { TestConfig.zero with ConfigPath := demoFs.Abs "root.yaml" }
        = .ok doc
      ∧ LoadConfig demoFs 2 "root.yaml" = some (.ok conf)
      ∧ conf = { doc with
          Tests := [{ emptySet "a" "" with Users := [demoUserNoEmail] }, emptySet "s1" "",
            emptySet "s2" "", emptySet "b" ""] }
      ∧ (∀ x ∈ conf.Tests, x.File = "")
      ∧ (∀ (pre post : List TestSet) (d : TestSet) (p : String) (doc2 : TestConfig),
          doc.Tests = pre ++ d :: post →
          (∀ x ∈ pre ++ post, x.File = "") → d.File ≠ "" →
          getFilePath demoFs (demoFs.Dir "root.yaml") d.File = .ok p →
          demoFs.Decode p { TestConfig.zero with ConfigPath := demoFs.Abs p } = .ok doc2 →
          (∀ x ∈ doc2.Tests, x.File = "") →
          conf.Tests.length = (doc.Tests.length - 1) + doc2.Tests.length
            ∧ d ∉ conf.Tests) :=
  ⟨by decide, by decide, LoadConfig_flattens demoFs 2 2 "root.yaml" _ (by decide) (by decide)⟩

/-! ## The in-memory remote system is faithful -/

section Reconcile

variable (env : Env ρ)

@[simp] theorem callUser_fst (k : Call) (f : ρ → User → UserReply ρ) (a : Nat)
    (w : World ρ) : (callUser k f a w).1 = (f w.remote (w.heap a)).err := rfl

@[simp] theorem callUser_calls_eq (k : Call) (f : ρ → User → UserReply ρ) (a : Nat)
    (w : World ρ) : (callUser k f a w).2.calls = w.calls ++ [k] := rfl

@[simp] theorem callLookup_fst {α : Type} (k : Call) (f : ρ → Reply ρ α) (w : World ρ) :
    (callLookup k f w).1 = (f w.remote).value := rfl

@[simp] theorem callLookup_calls_eq {α : Type} (k : Call) (f : ρ → Reply ρ α)
    (w : World ρ) : (callLookup k f w).2.calls = w.calls ++ [k] := rfl

variable {groupsOf : ρ → String → List Group} {rolesOf : ρ → String → List Role}
  {alive : ρ → String → Prop}

end Reconcile

section Reconcile2

variable (env : Env ρ)
variable {groupsOf : ρ → String → List Group} {rolesOf : ρ → String → List Role}
  {alive : ρ → String → Prop}

end Reconcile2

section Reconcile3

variable (env : Env ρ)
variable {groupsOf : ρ → String → List Group} {rolesOf : ρ → String → List Role}
  {alive : ρ → String → Prop}

end Reconcile3

section Reconcile4

variable (env : Env ρ)
variable {groupsOf : ρ → String → List Group} {rolesOf : ρ → String → List Role}
  {alive : ρ → String → Prop}

end Reconcile4

section Reconcile5

variable (env : Env ρ)
variable {groupsOf : ρ → String → List Group} {rolesOf : ρ → String → List Role}
  {alive : ρ → String → Prop}

theorem updateUserFromConfig_of_stages (t : UserCRUD) (a : Nat) (w : World ρ)
    (ha : t.User = some a)
    (r1 r2 r3 r4 : Option String × World ρ) (r5 : Except String (List Role) × World ρ)
    (new_roles : List Role) (r6 r7 : Option String × World ρ)
    (e1 : callUser (.GetUserGroups a) env.client.GetUserGroups a w = r1) (h1 : r1.1 = none)
    (e2 : addGroups env a t.Groups r1.2 = r2) (h2 : r2.1 = none)
    (e3 : removeGroups env t a (r2.2.heap a).Groups.length 0 (r2.2.heap a).Groups r2.2 = r3)
    (h3 : r3.1 = none)
    (e4 : callUser (.GetUserRoles a) env.client.GetUserRoles a r3.2 = r4) (h4 : r4.1 = none)
    (e5 : newRoles env a t.Roles [] r4.2 = r5) (h5 : r5.1 = .ok new_roles)
    (e6 : (if new_roles.length > 0 then
          callUser (.AddUserRoles a new_roles)
            (fun r u => env.client.AddUserRoles r u new_roles) a r5.2
        else (none, r5.2)) = r6) (h6 : r6.1 = none)
    (e7 : (if (delRoles t (r6.2.heap a).Roles []).length > 0 then
          callUser (.RemoveUserRoles a (delRoles t (r6.2.heap a).Roles []))
            (fun r u => env.client.RemoveUserRoles r u (delRoles t (r6.2.heap a).Roles []))
            a r6.2
        else (none, r6.2)) = r7) (h7 : r7.1 = none) :
    updateUserFromConfig env t w = some (none, r7.2) := by
  simp only [updateUserFromConfig, ha]
  rw [e1]; simp only [h1]
  rw [e2]; simp only [h2]
  rw [e3]; simp only [h3]
  rw [e4]; simp only [h4]
  rw [e5]; simp only [h5]
  rw [e6]; simp only [h6]
  rw [e7]; simp only [h7]

end Reconcile5

/-- The loop over `t.User.Groups` reads each cell when it reaches it.  The user `old` is
in `g1`, `g2` and `g3` and no group is declared.  With the in-memory client, which leaves
the cells alone, the run removes `g1`, `g2`, `g3`.  With the client that closes the gap
in place the cells hold `g2`, `g3`, `g3` after the first removal: the run removes `g1`,
then `g3` twice, and returns nil with the user still in `g2`.  So what `Faithful` says
of the cells is needed for C5 and C6. -/
theorem updateUserFromConfig_rereads_cells :
    (∃ w1, updateUserFromConfig storeEnv demoUserNoGroups trioWorld = some (none, w1)
      ∧ w1.calls = [Call.GetUserGroups 0,
          Call.RemoveUserFromGroupByID 0 ⟨"g1", "g1"⟩,
          Call.RemoveUserFromGroupByID 0 ⟨"g2", "g2"⟩,
          Call.RemoveUserFromGroupByID 0 ⟨"g3", "g3"⟩, Call.GetUserRoles 0]
      ∧ w1.remote.member "old" = [])
    ∧ (∃ w1, updateUserFromConfig { storeEnv with client := trimClient } demoUserNoGroups
          trioWorld = some (none, w1)
      ∧ w1.calls = [Call.GetUserGroups 0,
          Call.RemoveUserFromGroupByID 0 ⟨"g1", "g1"⟩,
          Call.RemoveUserFromGroupByID 0 ⟨"g3", "g3"⟩,
          Call.RemoveUserFromGroupByID 0 ⟨"g3", "g3"⟩, Call.GetUserRoles 0]
      ∧ w1.remote.member "old" = ["g2"]) :=
  ⟨⟨_, rfl, by decide, by decide⟩, ⟨_, rfl, by decide, by decide⟩⟩

section Success

variable (env : Env ρ)

theorem addGroups_success (a : Nat)
    (h2 : ∀ r g, ∃ grp, (env.client.GetGroupByName r g).value = .ok grp)
    (h3 : ∀ r u gid, (env.client.AssignUserToGroupByID r u gid).err = none)
    (gs : List String) : ∀ w : World ρ, (addGroups env a gs w).1 = none := by
  induction gs with
  | nil => intro w; rfl
  | cons g rest ih =>
    intro w
    simp only [addGroups]
    split
    · obtain ⟨grp, hg⟩ := h2 w.remote g
      simp only [callLookup_fst, hg, callUser_fst, h3]
      exact ih _
    · exact ih w

theorem removeGroups_success (t : UserCRUD) (a : Nat)
    (h4 : ∀ r u gid, (env.client.RemoveUserFromGroupByID r u gid).err = none)
    (left : Nat) : ∀ (i : Nat) (cells : List Group) (w : World ρ),
      (removeGroups env t a left i cells w).1 = none := by
  induction left with
  | zero => intro i cells w; rfl
  | succ n ih =>
    intro i cells w
    simp only [removeGroups]
    split
    · simp only [callUser_fst, h4]
      exact ih _ _ _
    · exact ih _ _ _

theorem newRoles_success (a : Nat)
    (h6 : ∀ r n, ∃ role, (env.client.GetRoleByName r n).value = .ok role)
    (ns : List String) :
    ∀ (acc : List Role) (w : World ρ), ∃ new_roles,
      (newRoles env a ns acc w).1 = .ok new_roles := by
  induction ns with
  | nil => intro acc w; exact ⟨acc, rfl⟩
  | cons n rest ih =>
    intro acc w
    simp only [newRoles]
    split
    · obtain ⟨role, hr⟩ := h6 w.remote n
      simp only [callLookup_fst, hr]
      exact ih _ _
    · exact ih acc w

theorem ite_callUser_success (c : Prop) [Decidable c] (k : Call)
    (f : ρ → User → UserReply ρ) (a : Nat) (w : World ρ) (h : ∀ r u, (f r u).err = none) :
    (if c then callUser k f a w else (none, w)).1 = none := by
  split
  · simp [h]
  · rfl

/-- When no client call returns an error and every name resolves, the run on a live
handle returns nil. -/
theorem updateUserFromConfig_success (t : UserCRUD) (a : Nat) (w : World ρ)
    (ha : t.User = some a)
    (h1 : ∀ r u, (env.client.GetUserGroups r u).err = none)
    (h2 : ∀ r g, ∃ grp, (env.client.GetGroupByName r g).value = .ok grp)
    (h3 : ∀ r u gid, (env.client.AssignUserToGroupByID r u gid).err = none)
    (h4 : ∀ r u gid, (env.client.RemoveUserFromGroupByID r u gid).err = none)
    (h5 : ∀ r u, (env.client.GetUserRoles r u).err = none)
    (h6 : ∀ r n, ∃ role, (env.client.GetRoleByName r n).value = .ok role)
    (h7 : ∀ r u roles, (env.client.AddUserRoles r u roles).err = none)
    (h8 : ∀ r u roles, (env.client.RemoveUserRoles r u roles).err = none) :
    ∃ w1, updateUserFromConfig env t w = some (none, w1) := by
  obtain ⟨new_roles, hn⟩ := newRoles_success env a h6 t.Roles []
    (callUser (.GetUserRoles a) env.client.GetUserRoles a
      (removeGroups env t a
        ((addGroups env a t.Groups
          (callUser (.GetUserGroups a) env.client.GetUserGroups a w).2).2.heap a).Groups.length
        0
        ((addGroups env a t.Groups
          (callUser (.GetUserGroups a) env.client.GetUserGroups a w).2).2.heap a).Groups
        (addGroups env a t.Groups
          (callUser (.GetUserGroups a) env.client.GetUserGroups a w).2).2).2).2
  refine ⟨_, updateUserFromConfig_of_stages env t a w ha _ _ _ _ _ new_roles _ _
    rfl (by simp [h1]) rfl (addGroups_success env a h2 h3 _ _) rfl
    (removeGroups_success env t a h4 _ _ _ _) rfl (by simp [h5]) rfl hn rfl
    (ite_callUser_success _ _ _ _ _ fun r u => h7 r u _) rfl
    (ite_callUser_success _ _ _ _ _ fun r u => h8 r u _)⟩

end Success

/-- C11 (ledger reasons): what the code does.  `LogSkip` appends one record with verdict
skip (2) whose `Reason` is the empty string, whatever reason it is passed; the reason
reaches the log line only.  `LogFail`, for a test that is not expected to fail, appends
one record with verdict fail (0) whose `Reason` is the message of the error.  At the
declaration of the example selected for Update only, which has no handle,
`UserTestsUpdate` passes the reason "invalid test (must read before updating)" to
`LogSkip` (it is the last argument of the log line) and the ledger holds one skip record
with an empty `Reason`. -/
theorem skip_reason_dropped (env : Env ρ) (failTest : Bool) (CRUD : String) (start : Int)
    (testName : String) (testId : Nat) (testObject reason : String) (w : World ρ) :
    (∃ r : TestResult,
      (LogSkip env failTest CRUD start testName testId testObject reason w).TestResults
        = w.TestResults ++ [r]
      ∧ r.Result = 2 ∧ r.Reason = "")
    ∧ (∃ r : TestResult,
      (LogFail env false CRUD start testName testId testObject reason w).TestResults
        = w.TestResults ++ [r]
      ∧ r.Result = 0 ∧ r.Reason = reason)
    ∧ (∃ users1 b w1 r,
      UserTestsUpdate storeEnv "set" [demoUserUpdateOnly] demoWorld = some (users1, b, w1)
      ∧ w1.log = [⟨"warning", "SKIP [%.3fs]: %v Test '%v' #%d - %v",
          [.secs 1000000000, .str "Update User", .str "set", .int 1,
            .str "invalid test (must read before updating)"]⟩]
      ∧ w1.TestResults = [r] ∧ r.Result = 2 ∧ r.Reason = ""
      ∧ r.Reason ≠ "invalid test (must read before updating)") := by
  refine ⟨⟨_, rfl, rfl, rfl⟩, ⟨_, rfl, rfl, rfl⟩, _, _, _, _, rfl, ?_, rfl, ?_, ?_, ?_⟩
  all_goals decide

/-! ## Phase selection -/

theorem containsChars_singleton (c : Char) (l : List Char) :
    containsChars [c] l = true ↔ c ∈ l := by
  induction l with
  | nil => simp [containsChars, List.isPrefixOf]
  | cons d ds ih =>
    rw [containsChars, Bool.or_eq_true, ih, List.mem_cons]
    have h : List.isPrefixOf [c] (d :: ds) = (c == d) := by
      simp [List.isPrefixOf]
    rw [h, beq_iff_eq]

theorem Contains_char (s : String) (c : Char) :
    Contains s (String.singleton c) = true ↔ c ∈ s.toList := by
  have h : (String.singleton c).toList = [c] := rfl
  simp only [Contains, h, containsChars_singleton]

theorem Contains_char_perm (s t : String) (c : Char) (h : t.toList.Perm s.toList) :
    Contains t (String.singleton c) = Contains s (String.singleton c) := by
  rw [Bool.eq_iff_iff, Contains_char, Contains_char, h.mem_iff]

theorem Contains_char_insert (a x b : String) (c : Char) (h : c ∉ x.toList) :
    Contains (a ++ x ++ b) (String.singleton c) = Contains (a ++ b) (String.singleton c) := by
  rw [Bool.eq_iff_iff, Contains_char, Contains_char]
  have h1 : c ∉ x.data := h
  simp [h1]

/-- C12 (phase selection).  For every phase string `s`: `IsCreate`, `IsRead`, `IsUpdate`
and `IsDelete` hold exactly when the character `C`, `R`, `U`, `D` respectively is among
the characters of `s`; every string `t` whose characters are a permutation of those of
`s` gets the same four answers; and inserting into `s`, at any place (`s = a ++ b`), a
string `x` that does not hold the character tested leaves the answer as it is. -/
theorem phase_selection (s : String) :
    ((IsCreate s = true ↔ 'C' ∈ s.toList) ∧ (IsRead s = true ↔ 'R' ∈ s.toList)
      ∧ (IsUpdate s = true ↔ 'U' ∈ s.toList) ∧ (IsDelete s = true ↔ 'D' ∈ s.toList))
    ∧ (∀ t : String, t.toList.Perm s.toList →
        IsCreate t = IsCreate s ∧ IsRead t = IsRead s
          ∧ IsUpdate t = IsUpdate s ∧ IsDelete t = IsDelete s)
    ∧ (∀ a x b : String, s = a ++ b →
        ('C' ∉ x.toList → IsCreate (a ++ x ++ b) = IsCreate s)
        ∧ ('R' ∉ x.toList → IsRead (a ++ x ++ b) = IsRead s)
        ∧ ('U' ∉ x.toList → IsUpdate (a ++ x ++ b) = IsUpdate s)
        ∧ ('D' ∉ x.toList → IsDelete (a ++ x ++ b) = IsDelete s)) := by
  refine ⟨⟨Contains_char s 'C', Contains_char s 'R', Contains_char s 'U',
    Contains_char s 'D'⟩, fun t h => ⟨Contains_char_perm s t 'C' h,
      Contains_char_perm s t 'R' h, Contains_char_perm s t 'U' h,
      Contains_char_perm s t 'D' h⟩, ?_⟩
  rintro a x b rfl
  exact ⟨Contains_char_insert a x b 'C', Contains_char_insert a x b 'R',
    Contains_char_insert a x b 'U', Contains_char_insert a x b 'D'⟩

/-- The examples of C12: `DURC`, a permutation of `CRUD`, selects all four phases; the
empty string selects none; `c` in lower case does not select Create; and `xCy`, which is
`C` with other characters added, selects Create and nothing else. -/
theorem phase_selection_witness :
    (IsCreate "DURC" = true ∧ IsRead "DURC" = true ∧ IsUpdate "DURC" = true
      ∧ IsDelete "DURC" = true)
    ∧ (IsCreate "DURC" = IsCreate "CRUD" ∧ IsRead "DURC" = IsRead "CRUD"
      ∧ IsUpdate "DURC" = IsUpdate "CRUD" ∧ IsDelete "DURC" = IsDelete "CRUD")
    ∧ (IsCreate "" = false ∧ IsRead "" = false ∧ IsUpdate "" = false ∧ IsDelete "" = false)
    ∧ IsCreate "c" = false
    ∧ (IsCreate "xCy" = IsCreate "Cy" ∧ IsRead "xCy" = IsRead "Cy") :=
  ⟨⟨(phase_selection "DURC").1.1.2 (by decide), (phase_selection "DURC").1.2.1.2 (by decide),
      (phase_selection "DURC").1.2.2.1.2 (by decide),
      (phase_selection "DURC").1.2.2.2.2 (by decide)⟩,
    (phase_selection "CRUD").2.1 "DURC" (by decide),
    ⟨Bool.eq_false_iff.2 fun h => absurd ((phase_selection "").1.1.1 h) (by decide),
      Bool.eq_false_iff.2 fun h => absurd ((phase_selection "").1.2.1.1 h) (by decide),
      Bool.eq_false_iff.2 fun h => absurd ((phase_selection "").1.2.2.1.1 h) (by decide),
      Bool.eq_false_iff.2 fun h => absurd ((phase_selection "").1.2.2.2.1 h) (by decide)⟩,
    Bool.eq_false_iff.2 fun h => absurd ((phase_selection "c").1.1.1 h) (by decide),
    ((phase_selection "Cy").2.2 "" "x" "Cy" rfl).1 (by decide),
    ((phase_selection "Cy").2.2 "" "x" "Cy" rfl).2.1 (by decide)⟩

/-! ## When Create and Read attach the handle -/

/-- C13, as the claim states it, fails for an error of the reconciliation: the
declaration of the example with the unknown group `g9` has no handle; the remote create
call succeeds, the handle is attached (address 0), the reconciliation fails on the lookup
of `g9`, and `UserTestCreate` returns that error with the handle still attached. -/
theorem create_handle_counterexample :
    demoUserBadGroup.User = none
    ∧ ∃ t1 w1,
        UserTestCreate storeEnv "set" demoUserBadGroup demoWorld
          = some (t1, some "failed to find group g9: group not found", w1)
        ∧ t1.User = some 0 ∧ t1.User ≠ none
        ∧ w1.calls = [Call.CreateUser { UserName := "u1", Email := "u1@x.com" },
            Call.GetUserGroups 0, Call.GetGroupByName "g9"] :=
  ⟨rfl, _, _, rfl, rfl, by decide, by decide⟩

/-- C13, amended.  Let `t` be a declaration with no handle.  `UserTestCreate` returns.
If the remote create call fails, it returns that error and the declaration is unchanged:
the handle is still nil.  If the remote create call succeeds, the handle is attached (a
fresh address, whose cell holds the user the call returned) before the reconciliation
runs, and it stays attached whatever the reconciliation returns; what `UserTestCreate`
returns is what the reconciliation returned.  So after a nil return the handle is not
nil.  `UserTestRead` returns; if the lookup fails it returns that error and the
declaration is unchanged, if the lookup succeeds it returns nil with the handle
attached. -/
theorem handle_attached_by_create (env : Env ρ) (testname : String) (t : UserCRUD)
    (w : World ρ) (hnil : t.User = none) :
    (∃ t1 err w1, UserTestCreate env testname t w = some (t1, err, w1)
      ∧ (∀ e, (env.client.CreateUser w.remote
            { UserName := t.Name, Email := t.Email }).value = .error e →
          err = some e ∧ t1 = t ∧ t1.User = none)
      ∧ (∀ u, (env.client.CreateUser w.remote
            { UserName := t.Name, Email := t.Email }).value = .ok u →
          t1 = { t with User := some w.next } ∧ t1.User ≠ none
          ∧ ∃ w0, w0.heap w.next = u ∧ updateUserFromConfig env t1 w0 = some (err, w1))
      ∧ (err = none → t1.User ≠ none))
    ∧ (∃ t1 err w1, UserTestRead env testname t w = some (t1, err, w1)
      ∧ (∀ e, (env.client.GetUserByUserName w.remote t.Name).value = .error e →
          err = some e ∧ t1 = t ∧ t1.User = none)
      ∧ (∀ u, (env.client.GetUserByUserName w.remote t.Name).value = .ok u →
          err = none ∧ t1 = { t with User := some w.next } ∧ w1.heap w.next = u)) := by
  constructor
  · have hs := UserTestCreate_isSome env testname t w
    obtain ⟨⟨t1, err, w1⟩, hr⟩ := Option.isSome_iff_exists.mp hs
    refine ⟨t1, err, w1, hr, ?_⟩
    simp only [UserTestCreate] at hr
    split at hr
    · rename_i e0 he
      cases hr
      simp only [callLookup] at he
      refine ⟨fun e h => ?_, fun u h => ?_, fun h => by cases h⟩
      · rw [he] at h
        cases h
        exact ⟨rfl, rfl, hnil⟩
      · rw [he] at h
        cases h
    · rename_i u0 he
      simp only [callLookup] at he
      split at hr
      · cases hr
      · rename_i e1 w2 hu
        cases hr
        refine ⟨fun e h => ?_, fun u h => ?_, fun _ => by simp [attach]⟩
        · rw [he] at h
          cases h
        · rw [he] at h
          cases h
          refine ⟨rfl, by simp [attach], _, ?_, hu⟩
          simp [attach, callLookup]
  · simp only [UserTestRead]
    split
    · rename_i e0 he
      simp only [callLookup] at he
      refine ⟨_, _, _, rfl, fun e h => ?_, fun u h => ?_⟩
      · rw [he] at h
        cases h
        exact ⟨rfl, rfl, hnil⟩
      · rw [he] at h
        cases h
    · rename_i u0 he
      simp only [callLookup] at he
      refine ⟨_, _, _, rfl, fun e h => ?_, fun u h => ?_⟩
      · rw [he] at h
        cases h
      · rw [he] at h
        cases h
        refine ⟨rfl, rfl, ?_⟩
        simp [attach, callLookup]

/-- The declaration of the example with the unknown group `g9` meets the hypothesis of
C13: it has no handle.  There the remote create call succeeds and the reconciliation
fails. -/
theorem handle_attached_by_create_witness :
    demoUserBadGroup.User = none
    ∧ (storeEnv.client.CreateUser demoWorld.remote
        { UserName := demoUserBadGroup.Name, Email := demoUserBadGroup.Email }).value
        = .ok { UserID := "u1", UserName := "u1", Email := "u1@x.com" }
    ∧ (∃ t1 err w1, UserTestCreate storeEnv "set" demoUserBadGroup demoWorld
          = some (t1, err, w1)
      ∧ (∀ e, (storeEnv.client.CreateUser demoWorld.remote
            { UserName := demoUserBadGroup.Name, Email := demoUserBadGroup.Email }).value
            = .error e →
          err = some e ∧ t1 = demoUserBadGroup ∧ t1.User = none)
      ∧ (∀ u, (storeEnv.client.CreateUser demoWorld.remote
            { UserName := demoUserBadGroup.Name, Email := demoUserBadGroup.Email }).value
            = .ok u →
          t1 = { demoUserBadGroup with User := some demoWorld.next } ∧ t1.User ≠ none
          ∧ ∃ w0, w0.heap demoWorld.next = u
              ∧ updateUserFromConfig storeEnv t1 w0 = some (err, w1))
      ∧ (err = none → t1.User ≠ none))
    ∧ (∃ t1 err w1, UserTestRead storeEnv "set" demoUserBadGroup demoWorld
          = some (t1, err, w1)
      ∧ (∀ e, (storeEnv.client.GetUserByUserName demoWorld.remote
            demoUserBadGroup.Name).value = .error e →
          err = some e ∧ t1 = demoUserBadGroup ∧ t1.User = none)
      ∧ (∀ u, (storeEnv.client.GetUserByUserName demoWorld.remote
            demoUserBadGroup.Name).value = .ok u →
          err = none ∧ t1 = { demoUserBadGroup with User := some demoWorld.next }
            ∧ w1.heap demoWorld.next = u)) :=
  ⟨rfl, rfl,
    handle_attached_by_create storeEnv "set" demoUserBadGroup demoWorld rfl⟩

end Cx1e2e
